import Mathlib

/-!
Verification of the cutie-pi dashboard (a Pygame touchscreen dashboard for a
Pi-hole DNS appliance) against its natural-language specification.

The Python sources are shallowly embedded below:

* `src/config.py`     → `getIntEnv`, the named configuration constants and
                        `save_settings` (modelled further down over character
                        lists);
* `src/api/pihole.py` → `piholeGet`, `get_summary`, `get_overtime`,
                        `get_top_blocked`, `get_top_clients`;
* `src/main.py`       → `DashState` with `handleKeydown`, `handleMouseDown`,
                        `handleMouseUp`, `sleepDisplay`, `wakeDisplay`,
                        `handleSettingsAction`, `dashUpdate`;
* `src/screens/settings.py` → `SettingsState` with `settingsHandleTap` and its
                        helpers.

Machine integers are modelled as `Int`/`Nat` (Python ints are unbounded, so no
wrap-around is needed); `time.time()` values appear as explicit `Int`
parameters; fallible externals (HTTP requests, sysfs file I/O) are passed in as
explicit outcome values.
-/

namespace CutiePi

/-! ## `config.py`: integer environment variables (`_get_int_env`) -/

/-- The state of an integer environment variable as observed by
`_get_int_env` in `config.py`: absent, present but non-numeric (so Python's
`int()` raises `ValueError`), or present with integer value `n`. -/
inductive EnvInt where
  | unset : EnvInt
  | invalid : EnvInt
  | num : Int → EnvInt

/-- Embedding of `_get_int_env(key, default, min_val, max_val)` from `config.py`.

The returned pair is `(value, warned)` where `warned` records whether a
`logger.warning` was emitted.  The source first evaluates
`int(os.environ.get(key, str(default)))` — when the variable is unset this
parses the default itself — and then applies the two range checks, returning
`min_val` when below the range and `max_val` when above it. -/
def getIntEnv (v : EnvInt) (default minVal maxVal : Int) : Int × Bool :=
  match v with
  | .invalid => (default, true)
  | .unset =>
      if default < minVal then (minVal, true)
      else if default > maxVal then (maxVal, true)
      else (default, false)
  | .num value =>
      if value < minVal then (minVal, true)
      else if value > maxVal then (maxVal, true)
      else (value, false)

/-- Config constant `SCREEN_WIDTH = _get_int_env("CUTIE_SCREEN_WIDTH", 480, 100, 1920)`. -/
def screenWidthFor (v : EnvInt) : Int × Bool := getIntEnv v 480 100 1920

/-- Config constant `SCREEN_HEIGHT = _get_int_env("CUTIE_SCREEN_HEIGHT", 320, 100, 1080)`. -/
def screenHeightFor (v : EnvInt) : Int × Bool := getIntEnv v 320 100 1080

/-- Config constant `FPS = _get_int_env("CUTIE_FPS", 30, 1, 120)`. -/
def fpsFor (v : EnvInt) : Int × Bool := getIntEnv v 30 1 120

/-- Config constant `API_UPDATE_INTERVAL = _get_int_env("CUTIE_API_INTERVAL", 5, 1, 3600)`. -/
def apiIntervalFor (v : EnvInt) : Int × Bool := getIntEnv v 5 1 3600

/-- Config constant `SYSTEM_UPDATE_INTERVAL = _get_int_env("CUTIE_SYSTEM_INTERVAL", 2, 1, 60)`. -/
def systemIntervalFor (v : EnvInt) : Int × Bool := getIntEnv v 2 1 60

/-- Config constant `SWIPE_THRESHOLD = _get_int_env("CUTIE_SWIPE_THRESHOLD", 50, 10, 200)`. -/
def swipeThresholdFor (v : EnvInt) : Int × Bool := getIntEnv v 50 10 200

/-- Config constant `SCREEN_TIMEOUT = _get_int_env("CUTIE_SCREEN_TIMEOUT", 0, 0, 60)`. -/
def screenTimeoutFor (v : EnvInt) : Int × Bool := getIntEnv v 0 0 60

/-- Config constant `BRIGHTNESS = _get_int_env("CUTIE_BRIGHTNESS", 100, 10, 100)`. -/
def brightnessFor (v : EnvInt) : Int × Bool := getIntEnv v 100 10 100

/-! The remainder of the development fixes the configuration constants at
their documented defaults (environment variables unset), matching the
concrete numbers used by the spec's claims. -/

/-- Config constant `TOTAL_SCREENS = 6` (`config.py`). -/
def TOTAL_SCREENS : Int := 6

/-- Config constant `SCREEN_SETTINGS = 5` (`config.py`). -/
def SCREEN_SETTINGS : Int := 5

/-- Constant `SWIPE_THRESHOLD` at its default (50 px). -/
def SWIPE_THRESHOLD : Int := 50

/-! ## `main.py`: screen navigation (`_handle_keydown` / `_handle_mouse_up`)

The navigation transitions of the 6-screen carousel, extracted from
`Dashboard._handle_keydown` (arrow keys) and `Dashboard._handle_mouse_up`
(swipes): `SwipeLeft`/right-arrow advance with `(i + 1) % TOTAL_SCREENS`,
`SwipeRight`/left-arrow go back with `(i - 1) % TOTAL_SCREENS`.  Python's
`%` on a positive modulus agrees with `Int.emod`. -/

/-- A navigation event: a left or right swipe, or a left/right arrow key. -/
inductive NavEvent where
  | swipeLeft : NavEvent
  | swipeRight : NavEvent
  | keyLeft : NavEvent
  | keyRight : NavEvent

/-- One navigation transition on the current-screen index. -/
def navStep (i : Int) (e : NavEvent) : Int :=
  match e with
  | .swipeLeft => (i + 1) % TOTAL_SCREENS
  | .swipeRight => (i - 1) % TOTAL_SCREENS
  | .keyLeft => (i - 1) % TOTAL_SCREENS
  | .keyRight => (i + 1) % TOTAL_SCREENS

/-- Apply a sequence of navigation events. -/
def navRun (i : Int) (es : List NavEvent) : Int := es.foldl navStep i

/-! ## `api/pihole.py`: the statistics client -/

/-- An HTTP response as far as `PiholeAPI._get` inspects it: a status code and
the value `response.json()` would produce, typed per endpoint. -/
structure HttpResponse (α : Type) where
  status : Int
  body : α

/-- The outcome of one `requests.get` call: `error` when the request raises
(network error, timeout), otherwise the response. -/
def ReqOutcome (α : Type) : Type := Except Unit (HttpResponse α)

/-- Embedding of `PiholeAPI._get`: returns the parsed body on a 200 response; on a 401 it
re-authenticates and retries once (outcome `r2`), returning that body only on
a 200; any exception or other status yields the empty dict (`empty`). -/
def piholeGet {α : Type} (empty : α) (r1 r2 : ReqOutcome α) : α :=
  match r1 with
  | .error _ => empty
  | .ok resp1 =>
      if resp1.status = 401 then
        match r2 with
        | .error _ => empty
        | .ok resp2 => if resp2.status = 200 then resp2.body else empty
      else if resp1.status = 200 then resp1.body else empty

/-- The request/retry outcome pair consumed by one `_get` call. -/
def RespPair (α : Type) : Type := ReqOutcome α × ReqOutcome α

/-- The predicate `fetchFailed r1 r2` holds exactly when the `_get` call ends in a failure
path: the request raised, or the (possibly retried) response was non-200. -/
def fetchFailed {α : Type} (r1 r2 : ReqOutcome α) : Prop :=
  match r1 with
  | .error _ => True
  | .ok resp1 =>
      if resp1.status = 401 then
        match r2 with
        | .error _ => True
        | .ok resp2 => resp2.status ≠ 200
      else resp1.status ≠ 200

instance {α : Type} (r1 r2 : ReqOutcome α) : Decidable (fetchFailed r1 r2) := by
  unfold fetchFailed
  rcases r1 with _ | resp1
  · exact inferInstanceAs (Decidable True)
  · dsimp only
    split
    · rcases r2 with _ | resp2
      · exact inferInstanceAs (Decidable True)
      · exact inferInstanceAs (Decidable _)
    · exact inferInstanceAs (Decidable _)

/-- The `"queries"` object of a `/stats/summary` body; each field may be
absent (`dict.get` with default 0). -/
structure QueriesObj where
  total : Option Int
  blocked : Option Int
  percent_blocked : Option Int

/-- The `"clients"` object of a `/stats/summary` body. -/
structure ClientsObj where
  active : Option Int

/-- The `"gravity"` object of a `/stats/summary` body. -/
structure GravityObj where
  domains_being_blocked : Option Int

/-- A `/stats/summary` response body; the empty dict `{}` is the value with
every field absent. -/
structure RawSummary where
  queries : Option QueriesObj
  clients : Option ClientsObj
  gravity : Option GravityObj
  blocking : Option Bool

/-- The empty dict `{}` as a `/stats/summary` body. -/
def emptyRawSummary : RawSummary := ⟨none, none, none, none⟩

/-- The dictionary returned by `PiholeAPI.get_summary` (percentages are
integral in all cases relevant here, so numbers are modelled as `Int`). -/
structure Summary where
  dns_queries_today : Int
  ads_blocked_today : Int
  ads_percentage_today : Int
  unique_clients : Int
  domains_being_blocked : Int
  status : String
deriving DecidableEq

/-- Embedding of `PiholeAPI.get_summary` applied to an already-fetched body: every numeric
field defaults to 0 and `status` is `"enabled"` unless `"blocking"` is
present and falsy. -/
def get_summary (data : RawSummary) : Summary :=
  let queries := data.queries.getD ⟨none, none, none⟩
  let clients := data.clients.getD ⟨none⟩
  { dns_queries_today := queries.total.getD 0
    ads_blocked_today := queries.blocked.getD 0
    ads_percentage_today := queries.percent_blocked.getD 0
    unique_clients := clients.active.getD 0
    domains_being_blocked := (data.gravity.getD ⟨none⟩).domains_being_blocked.getD 0
    status := if data.blocking.getD true then "enabled" else "disabled" }

/-- Embedding of `PiholeAPI.get_summary` including its `_get` call, as a function of the
two possible request outcomes. -/
def getSummaryFrom (r : RespPair RawSummary) : Summary :=
  get_summary (piholeGet emptyRawSummary r.1 r.2)

/-- A `/history` response body, as consumed unchanged by `get_overtime`; the
`"history"` entries are `(timestamp, total, blocked)` triples and the empty
dict `{}` has the field absent. -/
structure RawHistory where
  history : Option (List (Int × Int × Int))
deriving DecidableEq

/-- The empty dict `{}` as a `/history` body. -/
def emptyRawHistory : RawHistory := ⟨none⟩

/-- Embedding of `PiholeAPI.get_overtime`: returns the `_get("/history")` result verbatim. -/
def getOvertimeFrom (r : RespPair RawHistory) : RawHistory :=
  piholeGet emptyRawHistory r.1 r.2

/-- One entry of a `/stats/top_domains` body's `"domains"` list. -/
structure DomainEntry where
  domain : Option String
  count : Option Int

/-- A `/stats/top_domains` response body. -/
structure RawTopDomains where
  domains : Option (List DomainEntry)

/-- The empty dict `{}` as a `/stats/top_domains` body. -/
def emptyRawTopDomains : RawTopDomains := ⟨none⟩

/-- One entry of a `/stats/top_clients` body's `"clients"` list. -/
structure ClientEntry where
  name : Option String
  ip : Option String
  count : Option Int

/-- A `/stats/top_clients` response body. -/
structure RawTopClients where
  clients : Option (List ClientEntry)

/-- The empty dict `{}` as a `/stats/top_clients` body. -/
def emptyRawTopClients : RawTopClients := ⟨none⟩

/-- Embedding of `result[key] = value` on a Python dict modelled as an ordered association
list: an existing binding is updated in place, a new one is appended. -/
def pyDictInsert (m : List (String × Int)) (k : String) (v : Int) :
    List (String × Int) :=
  if m.any (fun p => p.1 = k) then
    m.map (fun p => if p.1 = k then (k, v) else p)
  else m ++ [(k, v)]

/-- Embedding of `PiholeAPI.get_top_blocked` applied to an already-fetched body: builds the
`domain → count` dict from `data.get("domains", [])` (the wrapping
`{"domains": …}` layer of the return value is left implicit). -/
def topBlockedOf (data : RawTopDomains) : List (String × Int) :=
  (data.domains.getD []).foldl
    (fun acc item => pyDictInsert acc (item.domain.getD "unknown") (item.count.getD 0)) []

/-- Embedding of `PiholeAPI.get_top_blocked` including its `_get` call. -/
def getTopBlockedFrom (r : RespPair RawTopDomains) : List (String × Int) :=
  topBlockedOf (piholeGet emptyRawTopDomains r.1 r.2)

/-- Embedding of `PiholeAPI.get_top_clients` applied to an already-fetched body:
`name = item.get("name") or item.get("ip", "unknown")` — a missing or empty
(falsy) `"name"` falls back to the `"ip"` value, defaulting to `"unknown"`. -/
def topClientsOf (data : RawTopClients) : List (String × Int) :=
  (data.clients.getD []).foldl
    (fun acc item =>
      let name :=
        match item.name with
        | some s => if s = "" then item.ip.getD "unknown" else s
        | none => item.ip.getD "unknown"
      pyDictInsert acc name (item.count.getD 0)) []

/-- Embedding of `PiholeAPI.get_top_clients` including its `_get` call. -/
def getTopClientsFrom (r : RespPair RawTopClients) : List (String × Int) :=
  topClientsOf (piholeGet emptyRawTopClients r.1 r.2)

/-! ## `screens/settings.py`: the Settings screen

Geometry constants come from `config.Layout` evaluated at the default
480×320 display (`scale_x = scale_y = 1.0`), with Python's `int()` truncating
toward zero:

* `margin_xs = 4`, `margin_sm = 10`, `margin_md = 15`, `margin_lg = 25`;
* `lock_rect = Rect(480 - 50, 4, 35, 25)`;
* `arrow_tap_left_start = int(480 * 0.54) = 259`,
  `arrow_tap_left_end = int(480 * 0.62) = 297`,
  `arrow_tap_right_start = 480 - 50 = 430`;
* option rows: `rank_x = 15`, width `480 - 30 = 450`, `row_start_y = 40`,
  `row_height_md = 38`, spacing `margin_xs = 4`.
-/

/-- A `pygame.Rect`. -/
structure Rect where
  x : Int
  y : Int
  w : Int
  h : Int
deriving DecidableEq

/-- Embedding of `Rect.collidepoint`: a point on the right or bottom edge is outside. -/
def Rect.collidepoint (r : Rect) (p : Int × Int) : Bool :=
  r.x ≤ p.1 ∧ p.1 < r.x + r.w ∧ r.y ≤ p.2 ∧ p.2 < r.y + r.h

/-- The rect `self.lock_rect` at the default layout. -/
def lockRect : Rect := ⟨430, 4, 35, 25⟩

/-- Embedding of `list_themes()` from `ui/themes.py`: the keys of `THEMES` in insertion
order. -/
def listThemes : List String :=
  ["default", "monochrome", "neon", "ocean", "sunset", "matrix",
   "cyberpunk", "666", "arcade"]

/-- The list `self.API_INTERVALS` (seconds). -/
def API_INTERVALS : List Int := [5, 10, 30, 60]

/-- The list `self.TIMEOUT_OPTIONS` (minutes, 0 = never). -/
def TIMEOUT_OPTIONS : List Int := [0, 1, 5, 10, 30]

/-- The mutable state of `SettingsScreen` (rendering-only attributes
omitted).  `optionRects` is rebuilt by `draw()`; it is `[]` until the screen
has been drawn once. -/
structure SettingsState where
  currentThemeIndex : Int
  selectedOption : Int
  scanlinesEnabled : Bool
  showFps : Bool
  brightness : Int
  apiIntervalIndex : Int
  screenTimeoutIndex : Int
  optionRects : List Rect
  locked : Bool
deriving DecidableEq

/-- The action dictionaries returned by `SettingsScreen.handle_tap` and
dispatched by `Dashboard._handle_settings_action`.  `lockSettings` is the
`{"action": "lock_settings"}` tag that the dashboard's dispatcher recognizes. -/
inductive SettingsAction where
  | changeTheme (theme : String)
  | toggleScanlines (enabled : Bool)
  | toggleFps (enabled : Bool)
  | setBrightness (value : Int)
  | setApiInterval (value : Int)
  | setTimeout (value : Int)
  | lockSettings
deriving DecidableEq

/-- Embedding of `SettingsScreen._handle_arrow_tap`: cycle an index down in the left-arrow
zone, up in the right-arrow zone, else leave it (Python `%` on the positive
length agrees with `Int.emod`). -/
def handleArrowTap (x : Int) (numValues : Int) (index : Int) : Int :=
  if 259 ≤ x ∧ x ≤ 297 then (index - 1) % numValues
  else if 430 ≤ x then (index + 1) % numValues
  else index

/-- Embedding of `SettingsScreen._handle_theme_tap`. -/
def handleThemeTap (x : Int) (st : SettingsState) :
    SettingsState × Option SettingsAction :=
  let newIndex := handleArrowTap x (listThemes.length : Int) st.currentThemeIndex
  if newIndex ≠ st.currentThemeIndex then
    ({ st with currentThemeIndex := newIndex },
     some (.changeTheme (listThemes.getD newIndex.toNat "default")))
  else (st, none)

/-- Embedding of `SettingsScreen._handle_brightness_tap`: steps by 10 within `[10, 100]`
and always returns a `set_brightness` action. -/
def handleBrightnessTap (x : Int) (st : SettingsState) :
    SettingsState × Option SettingsAction :=
  let st :=
    if 259 ≤ x ∧ x ≤ 297 then { st with brightness := max 10 (st.brightness - 10) }
    else if 430 ≤ x then { st with brightness := min 100 (st.brightness + 10) }
    else st
  (st, some (.setBrightness st.brightness))

/-- Embedding of `SettingsScreen._handle_api_interval_tap`. -/
def handleApiIntervalTap (x : Int) (st : SettingsState) :
    SettingsState × Option SettingsAction :=
  let newIndex := handleArrowTap x (API_INTERVALS.length : Int) st.apiIntervalIndex
  ({ st with apiIntervalIndex := newIndex },
   some (.setApiInterval (API_INTERVALS.getD newIndex.toNat 0)))

/-- Embedding of `SettingsScreen._handle_timeout_tap`. -/
def handleTimeoutTap (x : Int) (st : SettingsState) :
    SettingsState × Option SettingsAction :=
  let newIndex := handleArrowTap x (TIMEOUT_OPTIONS.length : Int) st.screenTimeoutIndex
  ({ st with screenTimeoutIndex := newIndex },
   some (.setTimeout (TIMEOUT_OPTIONS.getD newIndex.toNat 0)))

/-- Embedding of `SettingsScreen._toggle_scanlines`. -/
def toggleScanlinesTap (st : SettingsState) : SettingsState × Option SettingsAction :=
  let st := { st with scanlinesEnabled := !st.scanlinesEnabled }
  (st, some (.toggleScanlines st.scanlinesEnabled))

/-- Embedding of `SettingsScreen._toggle_fps`. -/
def toggleFpsTap (st : SettingsState) : SettingsState × Option SettingsAction :=
  let st := { st with showFps := !st.showFps }
  (st, some (.toggleFps st.showFps))

/-- The `for i, rect in enumerate(self.option_rects)` loop of `handle_tap`:
the index of the first rect containing the point. -/
def findTappedOption (rects : List Rect) (pos : Int × Int) (i : Nat) : Option Nat :=
  match rects with
  | [] => none
  | r :: rest =>
      if r.collidepoint pos then some i else findTappedOption rest pos (i + 1)

/-- Embedding of `SettingsScreen.handle_tap`: lock toggle first (returning no action),
then the locked guard, then option lookup and per-row dispatch. -/
def settingsHandleTap (pos : Int × Int) (st : SettingsState) :
    SettingsState × Option SettingsAction :=
  if lockRect.collidepoint pos then
    ({ st with locked := !st.locked }, none)
  else if st.locked then (st, none)
  else
    match findTappedOption st.optionRects pos 0 with
    | none => (st, none)
    | some tapped =>
        let st := { st with selectedOption := (tapped : Int) }
        match tapped with
        | 0 => handleThemeTap pos.1 st
        | 1 => toggleScanlinesTap st
        | 2 => toggleFpsTap st
        | 3 => handleBrightnessTap pos.1 st
        | 4 => handleApiIntervalTap pos.1 st
        | 5 => handleTimeoutTap pos.1 st
        | _ => (st, none)

/-- The six option row rects built by `SettingsScreen.draw` at the default
layout: row `i` is `Rect(15, 40 + 42 * i, 450, 38)`. -/
def drawnOptionRects : List Rect :=
  [⟨15, 40, 450, 38⟩, ⟨15, 82, 450, 38⟩, ⟨15, 124, 450, 38⟩,
   ⟨15, 166, 450, 38⟩, ⟨15, 208, 450, 38⟩, ⟨15, 250, 450, 38⟩]

/-- Embedding of `SettingsScreen.update`: sync `current_theme_index` with the dashboard's
current theme when it is a known theme name. -/
def settingsScreenUpdate (currentTheme : String) (st : SettingsState) : SettingsState :=
  if currentTheme ∈ listThemes then
    { st with currentThemeIndex := (listThemes.indexOf currentTheme : Int) }
  else st

/-! ## `main.py`: the `Dashboard` controller -/

/-- The six managed settings values, exactly the keyword arguments of a
`config.save_settings(...)` call. -/
structure SettingsValues where
  theme : String
  api_interval : Int
  screen_timeout : Int
  scanlines : Bool
  show_fps : Bool
  brightness : Int
deriving DecidableEq

/-- What the sysfs/X11 display hardware does when poked, per attempt.
`blBrightness` describes, for each of the four backlight `brightness` paths in
order, the content a read would return (`none` when opening/reading raises)
and whether the subsequent write of `"0"` succeeds.  The other methods only
affect hardware and logging, never dashboard state, so only their presence is
recorded. -/
structure HardwareEnv where
  fbBlankOk : Bool
  blPowerOk : List Bool
  blBrightness : List (Option String × Bool)
  dpmsOk : Bool

/-- The mutable state of `Dashboard` (rendering/pygame handles omitted).
`savedBrightness`/`brightnessPath` model the `_saved_brightness` and
`_brightness_path` attributes, which do not exist (`hasattr` is false) until
first assigned — `none` stands for the absent attribute.  `savedRecords` is
the observation trace of calls made to `config.save_settings`; the four
`cached*` fields are the `_summary`/`_overtime`/`_blocked`/`_clients`
attributes (absent until the first fetch), with `cachedSummary` pairing the
summary with the `dns_ip` entry added by `update`. -/
structure DashState where
  currentTheme : String
  scanlinesEnabled : Bool
  showFps : Bool
  screenTimeout : Int
  brightness : Int
  apiUpdateInterval : Int
  lastActivity : Int
  displayAsleep : Bool
  savedBrightness : Option String
  brightnessPath : Option Nat
  currentScreen : Int
  running : Bool
  lastApiUpdate : Int
  touchStartX : Int
  touchStartY : Int
  isTouching : Bool
  dnsIp : String
  settings : SettingsState
  savedRecords : List SettingsValues
  cachedSummary : Option (Summary × String)
  cachedOvertime : Option RawHistory
  cachedBlocked : Option (List (String × Int))
  cachedClients : Option (List (String × Int))
deriving DecidableEq

/-- Method 3 of `_sleep_display`: walk the backlight `brightness` paths; a
successful read stores the prior content in `_saved_brightness` even when the
following write of `"0"` fails, and `_brightness_path` is recorded only when
the write succeeds (then the loop breaks). -/
def brightnessSleepLoop :
    List (Option String × Bool) → Nat → Option String → Option Nat →
    Option String × Option Nat
  | [], _, saved, path => (saved, path)
  | (readResult, writeOk) :: rest, i, saved, path =>
      match readResult with
      | none => brightnessSleepLoop rest (i + 1) saved path
      | some v =>
          if writeOk then (some v, some i)
          else brightnessSleepLoop rest (i + 1) (some v) path

/-- Embedding of `Dashboard._sleep_display`: a no-op when already asleep; otherwise the
four blanking methods are attempted (only method 3 touches dashboard state)
and `display_asleep` is set unconditionally, whether or not any method
worked. -/
def sleepDisplay (env : HardwareEnv) (s : DashState) : DashState :=
  if s.displayAsleep then s
  else
    let sp := brightnessSleepLoop env.blBrightness 0 s.savedBrightness s.brightnessPath
    { s with displayAsleep := true, savedBrightness := sp.1, brightnessPath := sp.2 }

/-- Embedding of `Dashboard._wake_display`: a no-op when already awake; otherwise the four
wake methods run (the brightness restore only writes hardware — the saved
attributes are left in place), `display_asleep` is cleared and
`last_activity` is reset. -/
def wakeDisplay (now : Int) (s : DashState) : DashState :=
  if ¬ s.displayAsleep then s
  else { s with displayAsleep := false, lastActivity := now }

/-- The keyboard keys `_handle_keydown` distinguishes. -/
inductive Key where
  | escape : Key
  | left : Key
  | right : Key
  | other : Key

/-- Embedding of `Dashboard._handle_keydown`. -/
def handleKeydown (now : Int) (k : Key) (s : DashState) : DashState :=
  let s := { s with lastActivity := now }
  if s.displayAsleep then wakeDisplay now s
  else
    match k with
    | .escape => { s with running := false }
    | .left => { s with currentScreen := (s.currentScreen - 1) % TOTAL_SCREENS }
    | .right => { s with currentScreen := (s.currentScreen + 1) % TOTAL_SCREENS }
    | .other => s

/-- Embedding of `Dashboard._handle_mouse_down`. -/
def handleMouseDown (now : Int) (pos : Int × Int) (s : DashState) : DashState :=
  let s := { s with lastActivity := now }
  if s.displayAsleep then
    let s := wakeDisplay now s
    { s with isTouching := false }
  else
    { s with touchStartX := pos.1, touchStartY := pos.2, isTouching := true }

/-- Embedding of `Dashboard._save_settings`: invoke `config.save_settings` with the six
current values (recorded on the observation trace; its success only changes
what is logged). -/
def dashSaveSettings (s : DashState) : DashState :=
  { s with savedRecords := s.savedRecords ++
      [⟨s.currentTheme, s.apiUpdateInterval, s.screenTimeout,
        s.scanlinesEnabled, s.showFps, s.brightness⟩] }

/-- Embedding of `Dashboard._handle_settings_action`.  `_change_theme` and
`_set_brightness` additionally touch the theme table and backlight hardware,
neither of which is dashboard state. -/
def handleSettingsAction (a : SettingsAction) (s : DashState) : DashState :=
  match a with
  | .changeTheme t => { s with currentTheme := t }
  | .toggleScanlines e => { s with scanlinesEnabled := e }
  | .toggleFps e => { s with showFps := e }
  | .setBrightness v => { s with brightness := v }
  | .setApiInterval v => { s with apiUpdateInterval := v }
  | .setTimeout v => { s with screenTimeout := v }
  | .lockSettings => dashSaveSettings s

/-- The tap branch of `_handle_mouse_up`: run `handle_tap` on the Settings
screen and dispatch the returned action, if any. -/
def settingsTapDispatch (pos : Int × Int) (s : DashState) : DashState :=
  let r := settingsHandleTap pos s.settings
  let s1 := { s with settings := r.1 }
  match r.2 with
  | some a => handleSettingsAction a s1
  | none => s1

/-- Embedding of `Dashboard._handle_mouse_up`. -/
def handleMouseUp (pos : Int × Int) (s : DashState) : DashState :=
  if ¬ s.isTouching then s
  else
    let diffX := pos.1 - s.touchStartX
    let s1 :=
      if |diffX| < SWIPE_THRESHOLD ∧ s.currentScreen = SCREEN_SETTINGS then
        settingsTapDispatch pos s
      else if diffX < -SWIPE_THRESHOLD then
        { s with currentScreen := (s.currentScreen + 1) % TOTAL_SCREENS }
      else if diffX > SWIPE_THRESHOLD then
        { s with currentScreen := (s.currentScreen - 1) % TOTAL_SCREENS }
      else s
    { s1 with isTouching := false }

/-- The request outcomes available to one `Dashboard.update` tick, one
request/retry pair per endpoint. -/
structure ApiOutcome where
  summaryResp : RespPair RawSummary
  overtimeResp : RespPair RawHistory
  blockedResp : RespPair RawTopDomains
  clientsResp : RespPair RawTopClients

/-- The idle-timeout block of `Dashboard.update`: put the display to sleep
when a positive `screen_timeout` (minutes) has been exceeded by the idle
time. -/
def timeoutCheck (env : HardwareEnv) (now : Int) (s : DashState) : DashState :=
  if s.screenTimeout > 0 ∧ ¬ s.displayAsleep then
    if now - s.lastActivity > s.screenTimeout * 60 then sleepDisplay env s else s
  else s

/-- The fetch block of `Dashboard.update`: when
`now - last_api_update > api_update_interval`, all four fetches run and their
results are stored unconditionally (with `dns_ip` added to the summary) and
`last_api_update` is reset; otherwise nothing happens. -/
def apiFetchStep (api : ApiOutcome) (now : Int) (s : DashState) : DashState :=
  if now - s.lastApiUpdate > s.apiUpdateInterval then
    { s with
      cachedSummary := some (getSummaryFrom api.summaryResp, s.dnsIp),
      cachedOvertime := some (getOvertimeFrom api.overtimeResp),
      cachedBlocked := some (getTopBlockedFrom api.blockedResp),
      cachedClients := some (getTopClientsFrom api.clientsResp),
      lastApiUpdate := now }
  else s

/-- The full `Dashboard.update` tick: timeout check, then fetch block, then
the per-frame `screens[...].update(...)` calls, which feed cached data to the
screen objects; of those only the Settings screen's sync of
`current_theme_index` touches state modelled here. -/
def dashUpdate (env : HardwareEnv) (api : ApiOutcome) (now : Int) (s : DashState) :
    DashState :=
  let s := timeoutCheck env now s
  let s := apiFetchStep api now s
  { s with settings := settingsScreenUpdate s.currentTheme s.settings }

/-! ## Concrete fixtures for witnesses and counterexamples -/

/-- The Settings screen state at startup defaults (environment unset), after
one `draw()` has populated `option_rects`. -/
def sampleSettings : SettingsState :=
  { currentThemeIndex := 0, selectedOption := 0, scanlinesEnabled := true,
    showFps := false, brightness := 100, apiIntervalIndex := 0,
    screenTimeoutIndex := 0, optionRects := drawnOptionRects, locked := true }

/-- A dashboard state at startup defaults: awake, timeout disabled, index 0,
nothing fetched yet. -/
def sampleState : DashState :=
  { currentTheme := "default", scanlinesEnabled := true, showFps := false,
    screenTimeout := 0, brightness := 100, apiUpdateInterval := 5,
    lastActivity := 0, displayAsleep := false, savedBrightness := none,
    brightnessPath := none, currentScreen := 0, running := true,
    lastApiUpdate := 0, touchStartX := 0, touchStartY := 0, isTouching := false,
    dnsIp := "N/A", settings := sampleSettings, savedRecords := [],
    cachedSummary := none, cachedOvertime := none, cachedBlocked := none,
    cachedClients := none }

/-- Hardware with no working blanking strategy at all. -/
def bareEnv : HardwareEnv :=
  ⟨false, [false, false, false, false],
   [(none, false), (none, false), (none, false), (none, false)], false⟩

/-- An update tick on which every HTTP request raises. -/
def failedOutcome : ApiOutcome :=
  ⟨(.error (), .error ()), (.error (), .error ()),
   (.error (), .error ()), (.error (), .error ())⟩

/-! ## Shared lemmas -/

/-- On any failure path (`fetchFailed`), `_get` returns the empty dict. -/
theorem piholeGet_of_failed {α : Type} (empty : α) (r1 r2 : ReqOutcome α)
    (h : fetchFailed r1 r2) : piholeGet empty r1 r2 = empty := by
  cases r1 with
  | error e => rfl
  | ok resp1 =>
    simp only [fetchFailed] at h
    simp only [piholeGet]
    by_cases h401 : resp1.status = 401
    · simp only [if_pos h401] at h ⊢
      cases r2 with
      | error e2 => rfl
      | ok resp2 => simp_all
    · simp only [if_neg h401] at h ⊢
      simp [h]

/-! ## Claim theorems -/

/-- Claim C10 (confirmed).  Whenever the `_get` call behind `get_summary` ends
in a failure path — the request raises, or the (possibly once-retried)
response is non-200 — the returned summary has every numeric field equal to 0
and `status = "enabled"`. -/
theorem summary_zero_enabled_on_failure (r1 r2 : ReqOutcome RawSummary)
    (h : fetchFailed r1 r2) :
    getSummaryFrom (r1, r2) =
      { dns_queries_today := 0, ads_blocked_today := 0, ads_percentage_today := 0,
        unique_clients := 0, domains_being_blocked := 0, status := "enabled" } := by
  show get_summary (piholeGet emptyRawSummary r1 r2) = _
  rw [piholeGet_of_failed _ r1 r2 h]
  rfl

/-- Witness for C10: a raised request (and raised retry) yields the
all-zero, `"enabled"` summary. -/
theorem summary_zero_enabled_on_failure_witness :
    fetchFailed (Except.error () : ReqOutcome RawSummary) (Except.error ()) ∧
    getSummaryFrom ((Except.error (), Except.error ()) : RespPair RawSummary) =
      { dns_queries_today := 0, ads_blocked_today := 0, ads_percentage_today := 0,
        unique_clients := 0, domains_being_blocked := 0, status := "enabled" } :=
  ⟨True.intro, summary_zero_enabled_on_failure (.error ()) (.error ()) True.intro⟩

/-- Claim C9 counterexample.  `CUTIE_FPS=500` is outside the documented range
`[1, 120]`, but `_get_int_env` substitutes the range maximum 120, not the
documented default 30 — refuting the claim that out-of-range values are
replaced by the default. -/
theorem env_out_of_range_counterexample :
    fpsFor (.num 500) = (120, true) ∧ (fpsFor (.num 500)).1 ≠ 30 := by
  constructor
  · rfl
  · intro hc
    simp only [fpsFor, getIntEnv] at hc
    norm_num at hc

/-- Claim C9 (amended).  For an integer environment setting with documented
default inside the documented range `[minVal, maxVal]` (true of all seven:
screen size, FPS, API interval, system interval, swipe threshold, screen
timeout, brightness): a non-numeric value is replaced by the default and
logged; a value below the range is replaced by the range minimum and logged;
a value above it by the range maximum and logged; in-range values are kept
without logging. -/
theorem getIntEnv_validation (default minVal maxVal n : Int)
    (hmin : minVal ≤ default) (hmax : default ≤ maxVal) :
    getIntEnv .invalid default minVal maxVal = (default, true) ∧
    getIntEnv .unset default minVal maxVal = (default, false) ∧
    (n < minVal → getIntEnv (.num n) default minVal maxVal = (minVal, true)) ∧
    (maxVal < n → getIntEnv (.num n) default minVal maxVal = (maxVal, true)) ∧
    (minVal ≤ n → n ≤ maxVal → getIntEnv (.num n) default minVal maxVal = (n, false)) := by
  refine ⟨rfl, ?_, ?_, ?_, ?_⟩
  · show (if default < minVal then _ else if default > maxVal then _ else _) = _
    rw [if_neg (by omega), if_neg (by omega)]
  · intro h
    show (if n < minVal then _ else if n > maxVal then _ else _) = _
    rw [if_pos h]
  · intro h
    show (if n < minVal then _ else if n > maxVal then _ else _) = _
    rw [if_neg (by omega), if_pos (by omega)]
  · intro h1 h2
    show (if n < minVal then _ else if n > maxVal then _ else _) = _
    rw [if_neg (by omega), if_neg (by omega)]

/-- Witness for C9: the FPS setting (default 30, range `[1, 120]`) at a
non-numeric value, at 500, and at 60. -/
theorem getIntEnv_validation_witness :
    fpsFor .invalid = (30, true) ∧ fpsFor (.num 500) = (120, true) ∧
    fpsFor (.num 60) = (60, false) := by
  obtain ⟨h1, _, _, h4, _⟩ := getIntEnv_validation 30 1 120 500 (by omega) (by omega)
  obtain ⟨_, _, _, _, h5⟩ := getIntEnv_validation 30 1 120 60 (by omega) (by omega)
  exact ⟨h1, h4 (by omega), h5 (by omega) (by omega)⟩

/-- Each navigation step lands in `[0, 6)`. -/
theorem navStep_mem (i : Int) (e : NavEvent) : 0 ≤ navStep i e ∧ navStep i e < 6 := by
  cases e <;> simp only [navStep, TOTAL_SCREENS] <;> omega

/-- Any event sequence keeps the index in `[0, 6)`. -/
theorem navRun_bounds (es : List NavEvent) (i : Int) (h0 : 0 ≤ i) (h6 : i < 6) :
    0 ≤ navRun i es ∧ navRun i es < 6 := by
  induction es generalizing i with
  | nil => exact ⟨h0, h6⟩
  | cons e rest ih => exact ih (navStep i e) (navStep_mem i e).1 (navStep_mem i e).2

/-- Repeated left swipes: `k` of them advance the index by `k` modulo 6. -/
theorem navRun_replicate_swipeLeft (k : Nat) (i : Int) (h0 : 0 ≤ i) (h6 : i < 6) :
    navRun i (List.replicate k .swipeLeft) = (i + k) % 6 := by
  induction k generalizing i with
  | zero => simp only [List.replicate, navRun, List.foldl]; omega
  | succ k ih =>
    have h1 : navRun i (List.replicate (k + 1) .swipeLeft)
        = navRun ((i + 1) % 6) (List.replicate k .swipeLeft) := rfl
    rw [h1, ih ((i + 1) % 6) (by omega) (by omega)]
    omega

/-- Repeated right swipes: `k` of them move the index back by `k` modulo 6. -/
theorem navRun_replicate_swipeRight (k : Nat) (i : Int) (h0 : 0 ≤ i) (h6 : i < 6) :
    navRun i (List.replicate k .swipeRight) = (i - k) % 6 := by
  induction k generalizing i with
  | zero => simp only [List.replicate, navRun, List.foldl]; omega
  | succ k ih =>
    have h1 : navRun i (List.replicate (k + 1) .swipeRight)
        = navRun ((i - 1) % 6) (List.replicate k .swipeRight) := rfl
    rw [h1, ih ((i - 1) % 6) (by omega) (by omega)]
    omega

/-- Claim C5 (confirmed).  From any index in `[0, 6)`, every sequence of swipe
and arrow-key events keeps the current-screen index in `[0, 6)`; and `k`
`SwipeLeft` transitions followed by `k` `SwipeRight` transitions return the
index to its original value. -/
theorem nav_index_invariant_and_inverse (i : Int) (es : List NavEvent) (k : Nat)
    (h0 : 0 ≤ i) (h6 : i < 6) :
    (0 ≤ navRun i es ∧ navRun i es < 6) ∧
    navRun i (List.replicate k .swipeLeft ++ List.replicate k .swipeRight) = i := by
  refine ⟨navRun_bounds es i h0 h6, ?_⟩
  show List.foldl navStep i _ = i
  rw [List.foldl_append]
  have hL := navRun_replicate_swipeLeft k i h0 h6
  rw [show List.foldl navStep i (List.replicate k .swipeLeft)
      = navRun i (List.replicate k .swipeLeft) from rfl, hL]
  have hR := navRun_replicate_swipeRight k ((i + k) % 6) (by omega) (by omega)
  rw [show List.foldl navStep ((i + (k : Int)) % 6) (List.replicate k .swipeRight)
      = navRun ((i + (k : Int)) % 6) (List.replicate k .swipeRight) from rfl, hR]
  omega

/-- Witness for C5: from index 2, one swipe plus one right-arrow stays in
range, and 3 left swipes followed by 3 right swipes return to 2. -/
theorem nav_index_invariant_and_inverse_witness :
    (0 ≤ navRun 2 [.swipeLeft, .keyRight] ∧ navRun 2 [.swipeLeft, .keyRight] < 6) ∧
    navRun 2 (List.replicate 3 .swipeLeft ++ List.replicate 3 .swipeRight) = 2 :=
  nav_index_invariant_and_inverse 2 [.swipeLeft, .keyRight] 3 (by omega) (by omega)

/-- Rewriting `_handle_mouse_up` on a pending gesture as one case split. -/
theorem handleMouseUp_eq (pos : Int × Int) (s : DashState) (ht : s.isTouching = true) :
    handleMouseUp pos s =
      (if |pos.1 - s.touchStartX| < SWIPE_THRESHOLD ∧ s.currentScreen = SCREEN_SETTINGS then
        { settingsTapDispatch pos s with isTouching := false }
      else if pos.1 - s.touchStartX < -SWIPE_THRESHOLD then
        { s with currentScreen := (s.currentScreen + 1) % TOTAL_SCREENS, isTouching := false }
      else if pos.1 - s.touchStartX > SWIPE_THRESHOLD then
        { s with currentScreen := (s.currentScreen - 1) % TOTAL_SCREENS, isTouching := false }
      else { s with isTouching := false }) := by
  unfold handleMouseUp
  rw [if_neg (by simp [ht])]
  by_cases hA : |pos.1 - s.touchStartX| < SWIPE_THRESHOLD ∧ s.currentScreen = SCREEN_SETTINGS
  · simp only [if_pos hA]
  · simp only [if_neg hA]
    by_cases hB : pos.1 - s.touchStartX < -SWIPE_THRESHOLD
    · simp only [if_pos hB]
    · simp only [if_neg hB]
      by_cases hC : pos.1 - s.touchStartX > SWIPE_THRESHOLD
      · simp only [if_pos hC]
      · simp only [if_neg hC]

/-- Claim C4 (amended).  With threshold 50 and displacement
`dx = end.x - start.x`: `dx < -50` advances to the next screen, `dx > 50`
goes to the previous screen, `|dx| < 50` is a tap delivered at the release
position (acted on only when the Settings screen is active), and at the
boundary `|dx| = 50` the gesture is swallowed entirely — it is neither a
swipe nor a delivered tap. -/
theorem gesture_classification (s : DashState) (ex ey : Int)
    (ht : s.isTouching = true) :
    (ex - s.touchStartX < -50 →
       handleMouseUp (ex, ey) s =
         { s with currentScreen := (s.currentScreen + 1) % 6, isTouching := false }) ∧
    (ex - s.touchStartX > 50 →
       handleMouseUp (ex, ey) s =
         { s with currentScreen := (s.currentScreen - 1) % 6, isTouching := false }) ∧
    (|ex - s.touchStartX| < 50 → s.currentScreen = 5 →
       handleMouseUp (ex, ey) s =
         { settingsTapDispatch (ex, ey) s with isTouching := false }) ∧
    (|ex - s.touchStartX| < 50 → s.currentScreen ≠ 5 →
       handleMouseUp (ex, ey) s = { s with isTouching := false }) ∧
    (|ex - s.touchStartX| = 50 →
       handleMouseUp (ex, ey) s = { s with isTouching := false }) := by
  rw [handleMouseUp_eq (ex, ey) s ht]
  unfold SWIPE_THRESHOLD SCREEN_SETTINGS TOTAL_SCREENS
  have habs : |ex - s.touchStartX| < (50 : Int) ↔
      -50 < ex - s.touchStartX ∧ ex - s.touchStartX < 50 := abs_lt
  refine ⟨?_, ?_, ?_, ?_, ?_⟩
  · intro h
    rw [if_neg (by rw [habs]; omega), if_pos (by omega)]
  · intro h
    rw [if_neg (by rw [habs]; omega), if_neg (by omega), if_pos (by omega)]
  · intro h h5
    rw [if_pos ⟨h, h5⟩]
  · intro h h5
    rw [if_neg (by tauto), if_neg (by rw [habs] at h; omega),
        if_neg (by rw [habs] at h; omega)]
  · intro h
    have h2 : ex - s.touchStartX = 50 ∨ ex - s.touchStartX = -50 := by
      rcases abs_eq (by norm_num : (0:Int) ≤ 50) |>.mp h with h2 | h2 <;> omega
    rw [if_neg (by rw [habs]; omega), if_neg (by omega), if_neg (by omega)]

/-- Witness for C4: from screen 0 with the touch anchored at x = 100, a
release at x = 30 (`dx = -70`) advances to screen 1; a release at x = 150
(`dx = 50`, the boundary) changes nothing but the touch flag. -/
theorem gesture_classification_witness :
    handleMouseUp (30, 10) { sampleState with isTouching := true, touchStartX := 100 } =
      { sampleState with touchStartX := 100, currentScreen := 1, isTouching := false } ∧
    handleMouseUp (150, 10) { sampleState with isTouching := true, touchStartX := 100 } =
      { sampleState with touchStartX := 100, isTouching := false } := by
  constructor
  · exact ((gesture_classification { sampleState with isTouching := true, touchStartX := 100 }
      30 10 rfl).1 (by decide)).trans (by decide)
  · exact ((gesture_classification { sampleState with isTouching := true, touchStartX := 100 }
      150 10 rfl).2.2.2.2 (by decide)).trans (by decide)

/-- The state of C4's counterexample: Settings screen active, unlocked,
touch anchored at `(390, 10)`. -/
def boundaryTapState : DashState :=
  { sampleState with
    currentScreen := 5
    isTouching := true
    touchStartX := 390
    touchStartY := 10
    settings := { sampleSettings with locked := false } }

/-- Claim C4 counterexample.  Releasing at `(440, 10)` gives exactly `dx = 50`:
the claim says this boundary case is a tap delivered at the release position,
and indeed `handle_tap` at `(440, 10)` would toggle the lock flag — but
`_handle_mouse_up` delivers nothing: the state is unchanged except for the
cleared touch flag. -/
theorem gesture_boundary_counterexample :
    handleMouseUp (440, 10) boundaryTapState =
      { boundaryTapState with isTouching := false } ∧
    (settingsHandleTap (440, 10) boundaryTapState.settings).1.locked = true ∧
    boundaryTapState.settings.locked = false := by
  refine ⟨?_, ?_, ?_⟩ <;> rfl

/-- The state of C1's failing input: Settings screen active and unlocked,
touch anchored on the lock hit area at `(440, 10)`. -/
def lockTapState : DashState :=
  { sampleState with
    currentScreen := 5
    isTouching := true
    touchStartX := 440
    touchStartY := 10
    settings := { sampleSettings with locked := false } }

/-- Claim C1 (code bug).  A tap on the lock hit area while the settings are
unlocked transitions `locked` from `false` to `true`, but
`SettingsScreen.handle_tap` returns `None` for the lock toggle, so
`_handle_settings_action` never runs and `config.save_settings` is never
called: the save trace stays empty.  The dashboard dispatcher does contain
the `"lock_settings"` branch that performs the save the spec describes (last
conjunct) — but no code path ever produces that action. -/
theorem lock_transition_does_not_save :
    (handleMouseUp (440, 10) lockTapState).settings.locked = true ∧
    (handleMouseUp (440, 10) lockTapState).savedRecords = [] ∧
    (settingsHandleTap (440, 10) lockTapState.settings).2 = none ∧
    (handleSettingsAction .lockSettings lockTapState).savedRecords =
      [⟨"default", 5, 0, true, false, 100⟩] := by
  refine ⟨?_, ?_, ?_, ?_⟩ <;> rfl

/-- Claim C8 (confirmed).  Any key-down or pointer-down arriving while the
display is asleep wakes it and resets `last_activity`, and the waking event
is swallowed: no navigation change, no quit, no settings-screen effect, no
save; a waking pointer-down clears the touch anchor, so the pointer-up that
follows it is a no-op as well. -/
theorem waking_event_swallowed (s : DashState) (now : Int) (k : Key)
    (px py ux uy : Int) (h : s.displayAsleep = true) :
    (handleKeydown now k s).displayAsleep = false ∧
    (handleKeydown now k s).lastActivity = now ∧
    (handleKeydown now k s).currentScreen = s.currentScreen ∧
    (handleKeydown now k s).running = s.running ∧
    (handleKeydown now k s).settings = s.settings ∧
    (handleKeydown now k s).savedRecords = s.savedRecords ∧
    (handleMouseDown now (px, py) s).displayAsleep = false ∧
    (handleMouseDown now (px, py) s).lastActivity = now ∧
    (handleMouseDown now (px, py) s).currentScreen = s.currentScreen ∧
    (handleMouseDown now (px, py) s).settings = s.settings ∧
    (handleMouseDown now (px, py) s).savedRecords = s.savedRecords ∧
    (handleMouseDown now (px, py) s).isTouching = false ∧
    handleMouseUp (ux, uy) (handleMouseDown now (px, py) s) =
      handleMouseDown now (px, py) s := by
  simp [handleKeydown, handleMouseDown, handleMouseUp, wakeDisplay, h]

/-- A sleeping dashboard, for C8's witness. -/
def asleepState : DashState := { sampleState with displayAsleep := true }

/-- Witness for C8: an Escape key press and a pointer-down at `(100, 50)`
against the sleeping dashboard, followed by a pointer-up at `(120, 50)`. -/
theorem waking_event_swallowed_witness :
    (handleKeydown 7 .escape asleepState).displayAsleep = false ∧
    (handleKeydown 7 .escape asleepState).lastActivity = 7 ∧
    (handleKeydown 7 .escape asleepState).currentScreen = asleepState.currentScreen ∧
    (handleKeydown 7 .escape asleepState).running = asleepState.running ∧
    (handleKeydown 7 .escape asleepState).settings = asleepState.settings ∧
    (handleKeydown 7 .escape asleepState).savedRecords = asleepState.savedRecords ∧
    (handleMouseDown 7 (100, 50) asleepState).displayAsleep = false ∧
    (handleMouseDown 7 (100, 50) asleepState).lastActivity = 7 ∧
    (handleMouseDown 7 (100, 50) asleepState).currentScreen = asleepState.currentScreen ∧
    (handleMouseDown 7 (100, 50) asleepState).settings = asleepState.settings ∧
    (handleMouseDown 7 (100, 50) asleepState).savedRecords = asleepState.savedRecords ∧
    (handleMouseDown 7 (100, 50) asleepState).isTouching = false ∧
    handleMouseUp (120, 50) (handleMouseDown 7 (100, 50) asleepState) =
      handleMouseDown 7 (100, 50) asleepState :=
  waking_event_swallowed asleepState 7 .escape 100 50 120 50 rfl

/-- The procedure `_sleep_display` touches only the power fields. -/
theorem sleepDisplay_preserves (env : HardwareEnv) (s : DashState) :
    (sleepDisplay env s).lastApiUpdate = s.lastApiUpdate ∧
    (sleepDisplay env s).apiUpdateInterval = s.apiUpdateInterval ∧
    (sleepDisplay env s).cachedSummary = s.cachedSummary ∧
    (sleepDisplay env s).cachedOvertime = s.cachedOvertime ∧
    (sleepDisplay env s).cachedBlocked = s.cachedBlocked ∧
    (sleepDisplay env s).cachedClients = s.cachedClients ∧
    (sleepDisplay env s).dnsIp = s.dnsIp := by
  unfold sleepDisplay
  split <;> exact ⟨rfl, rfl, rfl, rfl, rfl, rfl, rfl⟩

/-- The idle-timeout block touches only the power fields. -/
theorem timeoutCheck_preserves (env : HardwareEnv) (now : Int) (s : DashState) :
    (timeoutCheck env now s).lastApiUpdate = s.lastApiUpdate ∧
    (timeoutCheck env now s).apiUpdateInterval = s.apiUpdateInterval ∧
    (timeoutCheck env now s).cachedSummary = s.cachedSummary ∧
    (timeoutCheck env now s).cachedOvertime = s.cachedOvertime ∧
    (timeoutCheck env now s).cachedBlocked = s.cachedBlocked ∧
    (timeoutCheck env now s).cachedClients = s.cachedClients ∧
    (timeoutCheck env now s).dnsIp = s.dnsIp := by
  unfold timeoutCheck
  split
  · split
    · exact sleepDisplay_preserves env s
    · exact ⟨rfl, rfl, rfl, rfl, rfl, rfl, rfl⟩
  · exact ⟨rfl, rfl, rfl, rfl, rfl, rfl, rfl⟩

/-- An update tick that is not yet due leaves `last_api_update` and all four
caches untouched. -/
theorem dashUpdate_not_due (env : HardwareEnv) (api : ApiOutcome) (now : Int)
    (s : DashState) (h : now - s.lastApiUpdate ≤ s.apiUpdateInterval) :
    (dashUpdate env api now s).lastApiUpdate = s.lastApiUpdate ∧
    (dashUpdate env api now s).cachedSummary = s.cachedSummary ∧
    (dashUpdate env api now s).cachedOvertime = s.cachedOvertime ∧
    (dashUpdate env api now s).cachedBlocked = s.cachedBlocked ∧
    (dashUpdate env api now s).cachedClients = s.cachedClients := by
  obtain ⟨hp1, hp2, hp3, hp4, hp5, hp6, _⟩ := timeoutCheck_preserves env now s
  have hfetch : apiFetchStep api now (timeoutCheck env now s) = timeoutCheck env now s := by
    unfold apiFetchStep
    rw [if_neg (by rw [hp1, hp2]; omega)]
  simp only [dashUpdate, hfetch]
  exact ⟨hp1, hp3, hp4, hp5, hp6⟩

/-- A due update tick stores all four fetch results (with `dns_ip` added to
the summary) and resets `last_api_update` to `now`. -/
theorem dashUpdate_due (env : HardwareEnv) (api : ApiOutcome) (now : Int)
    (s : DashState) (h : now - s.lastApiUpdate > s.apiUpdateInterval) :
    (dashUpdate env api now s).lastApiUpdate = now ∧
    (dashUpdate env api now s).cachedSummary =
      some (getSummaryFrom api.summaryResp, s.dnsIp) ∧
    (dashUpdate env api now s).cachedOvertime = some (getOvertimeFrom api.overtimeResp) ∧
    (dashUpdate env api now s).cachedBlocked = some (getTopBlockedFrom api.blockedResp) ∧
    (dashUpdate env api now s).cachedClients = some (getTopClientsFrom api.clientsResp) := by
  obtain ⟨hp1, hp2, _, _, _, _, hp7⟩ := timeoutCheck_preserves env now s
  have hfetch : apiFetchStep api now (timeoutCheck env now s) =
      { timeoutCheck env now s with
        cachedSummary := some (getSummaryFrom api.summaryResp,
          (timeoutCheck env now s).dnsIp)
        cachedOvertime := some (getOvertimeFrom api.overtimeResp)
        cachedBlocked := some (getTopBlockedFrom api.blockedResp)
        cachedClients := some (getTopClientsFrom api.clientsResp)
        lastApiUpdate := now } := by
    unfold apiFetchStep
    rw [if_pos (by rw [hp1, hp2]; omega)]
  simp [dashUpdate, hfetch, hp7]

/-- Claim C7 (confirmed).  `Dashboard.update` fetches nothing while the time
elapsed since `last_api_update` is at most `api_update_interval` (the caches
and `last_api_update` are untouched), and a tick whose elapsed time strictly
exceeds the interval performs the fetch exactly once, storing all four
results and setting `last_api_update` to the current time. -/
theorem scheduler_tick_behavior (env : HardwareEnv) (api : ApiOutcome)
    (now : Int) (s : DashState) :
    (now - s.lastApiUpdate ≤ s.apiUpdateInterval →
       (dashUpdate env api now s).lastApiUpdate = s.lastApiUpdate ∧
       (dashUpdate env api now s).cachedSummary = s.cachedSummary ∧
       (dashUpdate env api now s).cachedOvertime = s.cachedOvertime ∧
       (dashUpdate env api now s).cachedBlocked = s.cachedBlocked ∧
       (dashUpdate env api now s).cachedClients = s.cachedClients) ∧
    (now - s.lastApiUpdate > s.apiUpdateInterval →
       (dashUpdate env api now s).lastApiUpdate = now ∧
       (dashUpdate env api now s).cachedSummary =
         some (getSummaryFrom api.summaryResp, s.dnsIp)) :=
  ⟨fun h => dashUpdate_not_due env api now s h,
   fun h => ⟨(dashUpdate_due env api now s h).1, (dashUpdate_due env api now s h).2.1⟩⟩

/-- Witness for C7: interval 5, `last_fetch` at `t = 0`.  The tick at
`t + 3` changes nothing; so does the tick at `t + 5` (elapsed = interval);
the tick at `t + 6` fetches and sets `last_fetch := 6`. -/
theorem scheduler_tick_behavior_witness :
    ((dashUpdate bareEnv failedOutcome 3 sampleState).lastApiUpdate = 0 ∧
     (dashUpdate bareEnv failedOutcome 3 sampleState).cachedSummary = none) ∧
    ((dashUpdate bareEnv failedOutcome 5 sampleState).lastApiUpdate = 0 ∧
     (dashUpdate bareEnv failedOutcome 5 sampleState).cachedSummary = none) ∧
    ((dashUpdate bareEnv failedOutcome 6 sampleState).lastApiUpdate = 6 ∧
     (dashUpdate bareEnv failedOutcome 6 sampleState).cachedSummary =
       some (getSummaryFrom failedOutcome.summaryResp, sampleState.dnsIp)) := by
  obtain ⟨h3, _⟩ := scheduler_tick_behavior bareEnv failedOutcome 3 sampleState
  obtain ⟨h5, _⟩ := scheduler_tick_behavior bareEnv failedOutcome 5 sampleState
  obtain ⟨_, h6⟩ := scheduler_tick_behavior bareEnv failedOutcome 6 sampleState
  obtain ⟨h3a, h3b, _⟩ := h3 (by decide)
  obtain ⟨h5a, h5b, _⟩ := h5 (by decide)
  obtain ⟨h6a, h6b⟩ := h6 (by decide)
  exact ⟨⟨h3a, h3b⟩, ⟨h5a, h5b⟩, ⟨h6a, h6b⟩⟩

/-- Claim C2 (amended).  On a due tick whose fetches all fail, the error
sentinels — the all-zero summary, the empty history and the empty top lists —
are stored as the cached values, overwriting whatever was cached before, and
`last_api_update` is reset to `now` so no retry happens before the next due
cycle. -/
theorem failed_fetch_stores_sentinel (env : HardwareEnv) (api : ApiOutcome)
    (now : Int) (s : DashState)
    (hdue : now - s.lastApiUpdate > s.apiUpdateInterval)
    (h1 : fetchFailed api.summaryResp.1 api.summaryResp.2)
    (h2 : fetchFailed api.overtimeResp.1 api.overtimeResp.2)
    (h3 : fetchFailed api.blockedResp.1 api.blockedResp.2)
    (h4 : fetchFailed api.clientsResp.1 api.clientsResp.2) :
    (dashUpdate env api now s).cachedSummary =
      some (get_summary emptyRawSummary, s.dnsIp) ∧
    (dashUpdate env api now s).cachedOvertime = some emptyRawHistory ∧
    (dashUpdate env api now s).cachedBlocked = some [] ∧
    (dashUpdate env api now s).cachedClients = some [] ∧
    (dashUpdate env api now s).lastApiUpdate = now := by
  obtain ⟨ha, hb, hc, hd, he⟩ := dashUpdate_due env api now s hdue
  refine ⟨?_, ?_, ?_, ?_, ha⟩
  · rw [hb]
    show some (get_summary (piholeGet emptyRawSummary api.summaryResp.1 api.summaryResp.2),
      s.dnsIp) = _
    rw [piholeGet_of_failed _ _ _ h1]
  · rw [hc]
    show some (piholeGet emptyRawHistory api.overtimeResp.1 api.overtimeResp.2) = _
    rw [piholeGet_of_failed _ _ _ h2]
  · rw [hd]
    show some (topBlockedOf (piholeGet emptyRawTopDomains api.blockedResp.1
      api.blockedResp.2)) = _
    rw [piholeGet_of_failed _ _ _ h3]
    rfl
  · rw [he]
    show some (topClientsOf (piholeGet emptyRawTopClients api.clientsResp.1
      api.clientsResp.2)) = _
    rw [piholeGet_of_failed _ _ _ h4]
    rfl

/-- Witness for C2: a due tick (elapsed 6 > interval 5) on which every
request raises. -/
theorem failed_fetch_stores_sentinel_witness :
    (dashUpdate bareEnv failedOutcome 6 sampleState).cachedSummary =
      some (get_summary emptyRawSummary, sampleState.dnsIp) ∧
    (dashUpdate bareEnv failedOutcome 6 sampleState).cachedOvertime =
      some emptyRawHistory ∧
    (dashUpdate bareEnv failedOutcome 6 sampleState).cachedBlocked = some [] ∧
    (dashUpdate bareEnv failedOutcome 6 sampleState).cachedClients = some [] ∧
    (dashUpdate bareEnv failedOutcome 6 sampleState).lastApiUpdate = 6 :=
  failed_fetch_stores_sentinel bareEnv failedOutcome 6 sampleState (by decide)
    True.intro True.intro True.intro True.intro

/-- A dashboard state holding a previously fetched non-zero summary, for
C2's counterexample. -/
def cachedState : DashState :=
  { sampleState with
    cachedSummary := some
      ({ dns_queries_today := 100, ads_blocked_today := 7, ads_percentage_today := 7,
         unique_clients := 3, domains_being_blocked := 1000, status := "enabled" }, "N/A") }

/-- Claim C2 counterexample.  With a non-zero summary cached, a due tick whose
fetch fails does not leave the cached value at its previous value: the
all-zero sentinel replaces it. -/
theorem failed_fetch_cache_counterexample :
    (dashUpdate bareEnv failedOutcome 6 cachedState).cachedSummary ≠
      cachedState.cachedSummary ∧
    (dashUpdate bareEnv failedOutcome 6 cachedState).cachedSummary =
      some ({ dns_queries_today := 0, ads_blocked_today := 0, ads_percentage_today := 0,
              unique_clients := 0, domains_being_blocked := 0,
              status := "enabled" }, "N/A") := by
  refine ⟨?_, ?_⟩ <;> decide

/-- Hardware for C3's counterexample: the first backlight brightness path
reads `"155"` and accepts the zero write; everything else works too. -/
def brightnessEnv : HardwareEnv :=
  ⟨true, [true, true, true, true],
   [(some "155", true), (none, false), (none, false), (none, false)], true⟩

/-- Claim C3 counterexample.  Sleeping from the initial state records
`_saved_brightness = "155"` and the first brightness path; the wake that
follows restores the hardware but leaves both attributes recorded,
refuting "after a wake completes no saved brightness or strategy path
remains recorded". -/
theorem wake_retains_saved_state_counterexample :
    (sleepDisplay brightnessEnv sampleState).displayAsleep = true ∧
    (sleepDisplay brightnessEnv sampleState).savedBrightness = some "155" ∧
    (sleepDisplay brightnessEnv sampleState).brightnessPath = some 0 ∧
    (wakeDisplay 99 (sleepDisplay brightnessEnv sampleState)).displayAsleep = false ∧
    (wakeDisplay 99 (sleepDisplay brightnessEnv sampleState)).savedBrightness =
      some "155" ∧
    (wakeDisplay 99 (sleepDisplay brightnessEnv sampleState)).brightnessPath =
      some 0 := by
  refine ⟨?_, ?_, ?_, ?_, ?_, ?_⟩ <;> rfl

/-- Claim C3 (amended).  Sleeping from an awake state marks the display asleep
and records saved brightness and strategy path exactly as the brightness
strategy walk produces them; the wake procedure consumes them to restore the
hardware and resets the activity timestamp, but does not clear them — after a
wake completes they still hold the values recorded by the last sleep. -/
theorem sleep_sets_wake_retains (env : HardwareEnv) (now : Int) (s : DashState)
    (hawake : s.displayAsleep = false) :
    (sleepDisplay env s).displayAsleep = true ∧
    ((sleepDisplay env s).savedBrightness, (sleepDisplay env s).brightnessPath) =
      brightnessSleepLoop env.blBrightness 0 s.savedBrightness s.brightnessPath ∧
    (wakeDisplay now (sleepDisplay env s)).displayAsleep = false ∧
    (wakeDisplay now (sleepDisplay env s)).savedBrightness =
      (sleepDisplay env s).savedBrightness ∧
    (wakeDisplay now (sleepDisplay env s)).brightnessPath =
      (sleepDisplay env s).brightnessPath ∧
    (wakeDisplay now (sleepDisplay env s)).lastActivity = now := by
  simp [sleepDisplay, wakeDisplay, hawake]

/-- Witness for C3: the initial awake state against `brightnessEnv`,
woken at time 99. -/
theorem sleep_sets_wake_retains_witness :
    (sleepDisplay brightnessEnv sampleState).displayAsleep = true ∧
    ((sleepDisplay brightnessEnv sampleState).savedBrightness,
      (sleepDisplay brightnessEnv sampleState).brightnessPath) =
      brightnessSleepLoop brightnessEnv.blBrightness 0 sampleState.savedBrightness
        sampleState.brightnessPath ∧
    (wakeDisplay 99 (sleepDisplay brightnessEnv sampleState)).displayAsleep = false ∧
    (wakeDisplay 99 (sleepDisplay brightnessEnv sampleState)).savedBrightness =
      (sleepDisplay brightnessEnv sampleState).savedBrightness ∧
    (wakeDisplay 99 (sleepDisplay brightnessEnv sampleState)).brightnessPath =
      (sleepDisplay brightnessEnv sampleState).brightnessPath ∧
    (wakeDisplay 99 (sleepDisplay brightnessEnv sampleState)).lastActivity = 99 :=
  sleep_sets_wake_retains brightnessEnv 99 sampleState rfl

/-! ## `config.py`: `save_settings` and the on-disk key/value format

The config file is modelled by its character content (`List Char`).  The
string operations mirror the Python ones used by `save_settings`:
`str.strip()` (whitespace; the model covers the ASCII whitespace characters),
`str.strip('"')` (which removes **all** leading and trailing quote
characters), `line.split("=", 1)`, iteration over lines, Python `dict`
insertion (update in place, append when new) and `sorted(...)` over the
items (keys are unique, so sorting compares keys only, lexicographically by
code point). -/

/-- The ASCII whitespace characters stripped by `str.strip()`. -/
def pySpace (c : Char) : Bool :=
  c == ' ' || c == '\t' || c == '\n' || c == '\r' || c == Char.ofNat 11 || c == Char.ofNat 12

/-- Embedding of `str.strip(chars)`: drop the characters satisfying `p` from both ends. -/
def stripWith (p : Char → Bool) (l : List Char) : List Char :=
  ((l.dropWhile p).reverse.dropWhile p).reverse

/-- Embedding of `str.strip()`. -/
def pyStrip (l : List Char) : List Char := stripWith pySpace l

/-- The character class of `str.strip('"')`. -/
def isQuote (c : Char) : Bool := c == '"'

/-- Embedding of `str.strip('"')`. -/
def stripQuotes (l : List Char) : List Char := stripWith isQuote l

/-- Embedding of `line.split("=", 1)`: `none` when the line has no `=` (the `"=" in line`
guard), otherwise the parts before and after the first `=`. -/
def splitFirstEq : List Char → Option (List Char × List Char)
  | [] => none
  | c :: rest =>
      if c = '=' then some ([], rest)
      else
        match splitFirstEq rest with
        | none => none
        | some kv => some (c :: kv.1, kv.2)

/-- Worker for `splitLines`, implementing Python's universal newlines: a
line ends at `\n`, at `\r`, or at the pair `\r\n` (one terminator).  The
`afterCR` flag records that the previous character was a `\r` whose line has
already been emitted, so a directly following `\n` is part of the same
terminator and emits nothing. -/
def splitLinesAux : List Char → List Char → Bool → List (List Char)
  | [], acc, _ => [acc.reverse]
  | c :: rest, acc, afterCR =>
      if c = '\n' then
        if afterCR then splitLinesAux rest [] false
        else acc.reverse :: splitLinesAux rest [] false
      else if c = '\r' then acc.reverse :: splitLinesAux rest [] true
      else splitLinesAux rest (c :: acc) false

/-- The lines of a file, without their terminators.  `save_settings` opens
the config file in text mode, so `for line in f` uses universal newlines:
`\n`, `\r` and `\r\n` all end a line (the terminator is translated to `\n`
and the `line.strip()` that follows removes it). -/
def splitLines (content : List Char) : List (List Char) :=
  splitLinesAux content [] false

/-- The per-line body of the read loop in `save_settings`: strip the line,
skip empty and `#`-comment lines and lines without `=`, and otherwise
produce `(key.strip(), value.strip().strip('"'))`. -/
def parseLine (rawLine : List Char) : Option (List Char × List Char) :=
  let line := pyStrip rawLine
  if line = [] then none
  else if line.head? = some '#' then none
  else
    match splitFirstEq line with
    | none => none
    | some kv => some (pyStrip kv.1, stripQuotes (pyStrip kv.2))

/-- Embedding of `existing_config[key] = value` on a Python dict modelled as an ordered
association list: an existing binding is updated in place, a new one is
appended. -/
def dictInsert {β : Type} (m : List (List Char × β)) (k : List Char) (v : β) :
    List (List Char × β) :=
  if m.any (fun p => p.1 == k) then
    m.map (fun p => if p.1 == k then (k, v) else p)
  else m ++ [(k, v)]

/-- Python dict lookup (keys are unique, so first match suffices). -/
def dictLookup {β : Type} : List (List Char × β) → List Char → Option β
  | [], _ => none
  | p :: rest, key => if p.1 == key then some p.2 else dictLookup rest key

/-- The read loop of `save_settings`: fold the parsed lines into a dict. -/
def parseConfig (content : List Char) : List (List Char × List Char) :=
  (splitLines content).foldl
    (fun acc line =>
      match parseLine line with
      | none => acc
      | some kv => dictInsert acc kv.1 kv.2) []

/-- Python string `<` (lexicographic by code point). -/
def listCharLt : List Char → List Char → Bool
  | [], [] => false
  | [], _ :: _ => true
  | _ :: _, [] => false
  | a :: as, b :: bs => if a < b then true else if b < a then false else listCharLt as bs

/-- Insert a pair into a key-sorted list of pairs. -/
def insertSorted (p : List Char × List Char) :
    List (List Char × List Char) → List (List Char × List Char)
  | [] => [p]
  | q :: rest =>
      if listCharLt q.1 p.1 then q :: insertSorted p rest else p :: q :: rest

/-- Embedding of `sorted(existing_config.items())` (insertion sort by key; keys are
unique, so values never take part in the comparison). -/
def sortPairs (l : List (List Char × List Char)) : List (List Char × List Char) :=
  l.foldr insertSorted []

/-- Embedding of the write `f'{key}="{value}"'`. -/
def renderLine (k v : List Char) : List Char := k ++ '=' :: '"' :: (v ++ ['"'])

/-- The write loop: one `key="value"` line per pair, each `\n`-terminated. -/
def renderPairs : List (List Char × List Char) → List Char
  | [] => []
  | p :: rest => renderLine p.1 p.2 ++ '\n' :: renderPairs rest

/-- The first header line written by `save_settings`. -/
def headerLine1 : List Char := "# Cutie-Pi Configuration".toList

/-- The second header line written by `save_settings`. -/
def headerLine2 : List Char := "# Settings auto-saved by application".toList

/-- The two header writes: `"# Cutie-Pi Configuration\n"` and
`"# Settings auto-saved by application\n\n"`. -/
def headerChars : List Char := headerLine1 ++ '\n' :: headerLine2 ++ '\n' :: ['\n']

/-- The key `"CUTIE_THEME"`. -/
def KEY_THEME : List Char := "CUTIE_THEME".toList

/-- The key `"CUTIE_API_INTERVAL"`. -/
def KEY_API_INTERVAL : List Char := "CUTIE_API_INTERVAL".toList

/-- The key `"CUTIE_SCREEN_TIMEOUT"`. -/
def KEY_SCREEN_TIMEOUT : List Char := "CUTIE_SCREEN_TIMEOUT".toList

/-- The key `"CUTIE_SCANLINES"`. -/
def KEY_SCANLINES : List Char := "CUTIE_SCANLINES".toList

/-- The key `"CUTIE_SHOW_FPS"`. -/
def KEY_SHOW_FPS : List Char := "CUTIE_SHOW_FPS".toList

/-- The key `"CUTIE_BRIGHTNESS"`. -/
def KEY_BRIGHTNESS : List Char := "CUTIE_BRIGHTNESS".toList

/-- Embedding of `"true" if b else "false"`. -/
def pyBool (b : Bool) : List Char := if b then "true".toList else "false".toList

/-- The dict held by `save_settings` just before writing: the parsed existing
config overlaid with the six managed keys, in the order of the assignments in
the source.  Integer fields are rendered with `str(...)` (= `toString`),
booleans with `"true"/"false"`. -/
def overlayConfig (existing : List Char) (r : SettingsValues) :
    List (List Char × List Char) :=
  dictInsert (dictInsert (dictInsert (dictInsert (dictInsert (dictInsert
    (parseConfig existing)
    KEY_THEME r.theme.toList)
    KEY_API_INTERVAL (toString r.api_interval).toList)
    KEY_SCREEN_TIMEOUT (toString r.screen_timeout).toList)
    KEY_SCANLINES (pyBool r.scanlines))
    KEY_SHOW_FPS (pyBool r.show_fps))
    KEY_BRIGHTNESS (toString r.brightness).toList

/-- Embedding of `config.save_settings` on its successful path, as a function from the
existing file content (an absent file behaves like empty content) and the six
values to the rewritten file content. -/
def saveSettingsContent (existing : List Char) (r : SettingsValues) : List Char :=
  headerChars ++ renderPairs (sortPairs (overlayConfig existing r))

/-- The six keys managed by `save_settings`. -/
def managedKeys : List (List Char) :=
  [KEY_THEME, KEY_API_INTERVAL, KEY_SCREEN_TIMEOUT, KEY_SCANLINES,
   KEY_SHOW_FPS, KEY_BRIGHTNESS]

/-! ### Lemmas about the string primitives -/

/-- Characters of `dropWhile` output come from the input. -/
theorem mem_of_mem_dropWhile {p : Char → Bool} {l : List Char} {c : Char}
    (h : c ∈ l.dropWhile p) : c ∈ l :=
  (List.dropWhile_suffix p).sublist.subset h

/-- Characters of `stripWith` output come from the input. -/
theorem mem_of_mem_stripWith {p : Char → Bool} {l : List Char} {c : Char}
    (h : c ∈ stripWith p l) : c ∈ l := by
  unfold stripWith at h
  rw [List.mem_reverse] at h
  have h2 := mem_of_mem_dropWhile h
  rw [List.mem_reverse] at h2
  exact mem_of_mem_dropWhile h2

/-- The head of `dropWhile p` does not satisfy `p`. -/
theorem head?_dropWhile {p : Char → Bool} {l : List Char} {c : Char}
    (h : (l.dropWhile p).head? = some c) : p c = false := by
  induction l with
  | nil => simp at h
  | cons a l ih =>
    rw [List.dropWhile_cons] at h
    by_cases hp : p a
    · rw [if_pos hp] at h; exact ih h
    · rw [if_neg hp] at h
      simp only [List.head?_cons, Option.some.injEq] at h
      subst h
      simpa using hp

/-- The `dropWhile` of a list whose head does not satisfy `p` is the list. -/
theorem dropWhile_eq_self {p : Char → Bool} {l : List Char}
    (h : ∀ c, l.head? = some c → p c = false) : l.dropWhile p = l := by
  cases l with
  | nil => rfl
  | cons a l => rw [List.dropWhile_cons, if_neg (by simp [h a rfl])]

/-- A nonempty `dropWhile` keeps the last element. -/
theorem getLast?_dropWhile {p : Char → Bool} {l : List Char}
    (h : l.dropWhile p ≠ []) : (l.dropWhile p).getLast? = l.getLast? := by
  induction l with
  | nil => simp at h
  | cons a l ih =>
    rw [List.dropWhile_cons] at h ⊢
    by_cases hp : p a
    · rw [if_pos hp] at h ⊢
      have hl : l ≠ [] := fun he => h (by simp [he])
      obtain ⟨b, l', rfl⟩ := List.exists_cons_of_ne_nil hl
      rw [ih h, List.getLast?_cons_cons]
    · rw [if_neg hp]

/-- The function `stripWith` fixes lists whose two ends are already clean. -/
theorem stripWith_eq_self {p : Char → Bool} {l : List Char}
    (h1 : ∀ c, l.head? = some c → p c = false)
    (h2 : ∀ c, l.getLast? = some c → p c = false) : stripWith p l = l := by
  unfold stripWith
  rw [dropWhile_eq_self h1,
      dropWhile_eq_self (fun c hc => h2 c (by rwa [List.head?_reverse] at hc)),
      List.reverse_reverse]

/-- The head of `stripWith` output does not satisfy `p`. -/
theorem stripWith_head? {p : Char → Bool} {l : List Char} {c : Char}
    (h : (stripWith p l).head? = some c) : p c = false := by
  unfold stripWith at h
  rw [List.head?_reverse] at h
  have hne : List.dropWhile p (l.dropWhile p).reverse ≠ [] := by
    intro he; rw [he] at h; simp at h
  rw [getLast?_dropWhile hne, List.getLast?_reverse] at h
  exact head?_dropWhile h

/-- The last character of `stripWith` output does not satisfy `p`. -/
theorem stripWith_getLast? {p : Char → Bool} {l : List Char} {c : Char}
    (h : (stripWith p l).getLast? = some c) : p c = false := by
  unfold stripWith at h
  rw [List.getLast?_reverse] at h
  exact head?_dropWhile h

/-- The function `stripWith` is idempotent. -/
theorem stripWith_idem (p : Char → Bool) (l : List Char) :
    stripWith p (stripWith p l) = stripWith p l :=
  stripWith_eq_self (fun _ hc => stripWith_head? hc) (fun _ hc => stripWith_getLast? hc)

/-- A nonempty strip keeps the head of the front-dropped list. -/
theorem stripWith_head?_eq {p : Char → Bool} {l : List Char}
    (h : stripWith p l ≠ []) : (stripWith p l).head? = (l.dropWhile p).head? := by
  unfold stripWith at h ⊢
  rw [List.head?_reverse]
  have hne : List.dropWhile p (l.dropWhile p).reverse ≠ [] := by
    intro he; rw [he] at h; simp at h
  rw [getLast?_dropWhile hne, List.getLast?_reverse]

/-- Splitting at the first `=` after appending `k ++ '=' :: rest` recovers
the parts, provided `k` itself has no `=`. -/
theorem splitFirstEq_append {k : List Char} (rest : List Char) (h : '=' ∉ k) :
    splitFirstEq (k ++ '=' :: rest) = some (k, rest) := by
  induction k with
  | nil => simp [splitFirstEq]
  | cons a k ih =>
    have ha : a ≠ '=' := fun he => h (by simp [he])
    have h' : '=' ∉ k := fun hm => h (List.mem_cons_of_mem a hm)
    simp only [List.cons_append, splitFirstEq, List.append_eq]
    rw [if_neg ha, ih h']

/-- The part before the first `=` contains no `=`. -/
theorem splitFirstEq_no_eq {l : List Char} {kv : List Char × List Char}
    (h : splitFirstEq l = some kv) : '=' ∉ kv.1 := by
  induction l generalizing kv with
  | nil => simp [splitFirstEq] at h
  | cons a l ih =>
    simp only [splitFirstEq] at h
    by_cases ha : a = '='
    · rw [if_pos ha] at h
      simp only [Option.some.injEq] at h
      subst h
      simp
    · rw [if_neg ha] at h
      cases hsp : splitFirstEq l with
      | none => rw [hsp] at h; simp at h
      | some kv' =>
        rw [hsp] at h
        simp only [Option.some.injEq] at h
        subst h
        intro hm
        rcases List.mem_cons.mp hm with he | hm
        · exact ha he.symm
        · exact ih hsp hm

/-- Characters of both split parts come from the input. -/
theorem splitFirstEq_mem {l : List Char} {kv : List Char × List Char}
    (h : splitFirstEq l = some kv) :
    (∀ c ∈ kv.1, c ∈ l) ∧ (∀ c ∈ kv.2, c ∈ l) := by
  induction l generalizing kv with
  | nil => simp [splitFirstEq] at h
  | cons a l ih =>
    simp only [splitFirstEq] at h
    by_cases ha : a = '='
    · rw [if_pos ha] at h
      simp only [Option.some.injEq] at h
      subst h
      exact ⟨fun c hc => by simp at hc, fun c hc => List.mem_cons_of_mem a hc⟩
    · rw [if_neg ha] at h
      cases hsp : splitFirstEq l with
      | none => rw [hsp] at h; simp at h
      | some kv' =>
        rw [hsp] at h
        simp only [Option.some.injEq] at h
        subst h
        refine ⟨fun c hc => ?_, fun c hc => List.mem_cons_of_mem a ((ih hsp).2 c hc)⟩
        rcases List.mem_cons.mp hc with rfl | hc
        · exact List.mem_cons_self _ _
        · exact List.mem_cons_of_mem a ((ih hsp).1 c hc)

/-- Splitting off one terminator-free line. -/
theorem splitLinesAux_append {l : List Char} (rest acc : List Char)
    (h : '\n' ∉ l) (hr : '\r' ∉ l) :
    splitLinesAux (l ++ '\n' :: rest) acc false =
      (acc.reverse ++ l) :: splitLinesAux rest [] false := by
  induction l generalizing acc with
  | nil => simp [splitLinesAux]
  | cons a l ih =>
    have ha : a ≠ '\n' := fun he => h (by simp [he])
    have har : a ≠ '\r' := fun he => hr (by simp [he])
    have h' : '\n' ∉ l := fun hm => h (List.mem_cons_of_mem a hm)
    have hr' : '\r' ∉ l := fun hm => hr (List.mem_cons_of_mem a hm)
    simp only [List.cons_append, splitLinesAux, List.append_eq]
    rw [if_neg ha, if_neg har, ih _ h' hr']
    simp

/-- Lines produced by `splitLines` contain neither `\n` nor `\r`. -/
theorem splitLines_no_newline {content : List Char} :
    ∀ line ∈ splitLines content, '\n' ∉ line ∧ '\r' ∉ line := by
  suffices h : ∀ (acc : List Char) (flag : Bool), '\n' ∉ acc → '\r' ∉ acc →
      ∀ line ∈ splitLinesAux content acc flag, '\n' ∉ line ∧ '\r' ∉ line from
    h [] false (by simp) (by simp)
  induction content with
  | nil =>
    intro acc flag hacc hacr line hline
    simp only [splitLinesAux, List.mem_singleton] at hline
    subst hline
    constructor
    · simpa using hacc
    · simpa using hacr
  | cons a rest ih =>
    intro acc flag hacc hacr line hline
    simp only [splitLinesAux] at hline
    by_cases ha : a = '\n'
    · rw [if_pos ha] at hline
      cases flag with
      | true =>
        simp only [if_pos rfl] at hline
        exact ih [] false (by simp) (by simp) line hline
      | false =>
        simp only [if_neg (by simp : ¬ false = true)] at hline
        rcases List.mem_cons.mp hline with rfl | hline
        · exact ⟨by simpa using hacc, by simpa using hacr⟩
        · exact ih [] false (by simp) (by simp) line hline
    · rw [if_neg ha] at hline
      by_cases har : a = '\r'
      · rw [if_pos har] at hline
        rcases List.mem_cons.mp hline with rfl | hline
        · exact ⟨by simpa using hacc, by simpa using hacr⟩
        · exact ih [] true (by simp) (by simp) line hline
      · rw [if_neg har] at hline
        refine ih (a :: acc) false ?_ ?_ line hline
        · intro hm
          rcases List.mem_cons.mp hm with he | hm
          · exact ha he.symm
          · exact hacc hm
        · intro hm
          rcases List.mem_cons.mp hm with he | hm
          · exact har he.symm
          · exact hacr hm

/-- The function `splitFirstEq` really is a split of the input at an `=`. -/
theorem splitFirstEq_eq {l : List Char} {kv : List Char × List Char}
    (h : splitFirstEq l = some kv) : l = kv.1 ++ '=' :: kv.2 := by
  induction l generalizing kv with
  | nil => simp [splitFirstEq] at h
  | cons a l ih =>
    simp only [splitFirstEq] at h
    by_cases ha : a = '='
    · rw [if_pos ha] at h
      simp only [Option.some.injEq] at h
      subst h
      simp [ha]
    · rw [if_neg ha] at h
      cases hsp : splitFirstEq l with
      | none => rw [hsp] at h; simp at h
      | some kv' =>
        rw [hsp] at h
        simp only [Option.some.injEq] at h
        subst h
        simpa using ih hsp

/-! ### The invariants of stored keys and values -/

/-- Keys, as the read loop of `save_settings` produces them: already
stripped, no `=`, not starting with `#`, and free of the line terminators
`\n` and `\r`. -/
def CleanKey (k : List Char) : Prop :=
  pyStrip k = k ∧ '=' ∉ k ∧ k.head? ≠ some '#' ∧ '\n' ∉ k ∧ '\r' ∉ k

/-- Values, as the read loop of `save_settings` produces them: no leading or
trailing quote character, and free of the line terminators `\n` and `\r`. -/
def CleanValue (v : List Char) : Prop :=
  v.head? ≠ some '"' ∧ v.getLast? ≠ some '"' ∧ '\n' ∉ v ∧ '\r' ∉ v

instance (k : List Char) : Decidable (CleanKey k) := by
  unfold CleanKey
  infer_instance

instance (v : List Char) : Decidable (CleanValue v) := by
  unfold CleanValue
  infer_instance

/-- A rendered `key="value"` line contains no character beyond those of its
parts, `=` and `"`; in particular no line terminator when the parts carry
none. -/
theorem renderLine_not_mem {c : Char} {k v : List Char} (hc1 : c ≠ '=')
    (hc2 : c ≠ '"') (hk : c ∉ k) (hv : c ∉ v) : c ∉ renderLine k v := by
  unfold renderLine
  intro hm
  rcases List.mem_append.mp hm with h | h
  · exact hk h
  · rcases List.mem_cons.mp h with he | h
    · exact hc1 he
    · rcases List.mem_cons.mp h with he | h
      · exact hc2 he
      · rcases List.mem_append.mp h with h | h
        · exact hv h
        · exact hc2 (List.mem_singleton.mp h)

/-- A rendered `key="value"` line parses back to exactly `(key, value)`. -/
theorem parseLine_render {k v : List Char} (hk : CleanKey k) (hv : CleanValue v) :
    parseLine (renderLine k v) = some (k, v) := by
  obtain ⟨hks, hkeq, hkhash, -, -⟩ := hk
  obtain ⟨hvh, hvl, -, -⟩ := hv
  have hkhead : ∀ c, k.head? = some c → pySpace c = false := by
    intro c hc
    refine stripWith_head? (p := pySpace) (l := k) ?_
    rw [show stripWith pySpace k = k from hks]
    exact hc
  have hlast : (renderLine k v).getLast? = some '"' := by
    unfold renderLine
    rw [show k ++ '=' :: '"' :: (v ++ ['"']) = (k ++ '=' :: '"' :: v) ++ ['"'] by simp]
    exact List.getLast?_concat _
  have hstrip : pyStrip (renderLine k v) = renderLine k v := by
    unfold pyStrip
    apply stripWith_eq_self
    · intro c hc
      unfold renderLine at hc
      cases k with
      | nil =>
        simp only [List.nil_append, List.head?_cons, Option.some.injEq] at hc
        subst hc
        decide
      | cons a k' =>
        simp only [List.cons_append, List.head?_cons, Option.some.injEq] at hc
        subst hc
        exact hkhead _ rfl
    · intro c hc
      rw [hlast] at hc
      simp only [Option.some.injEq] at hc
      subst hc
      decide
  have hne : renderLine k v ≠ [] := by
    unfold renderLine
    cases k <;> simp
  have hhash : (renderLine k v).head? ≠ some '#' := by
    unfold renderLine
    cases k with
    | nil => simp
    | cons a k' =>
      simp only [List.cons_append, List.head?_cons, ne_eq, Option.some.injEq]
      intro he
      subst he
      exact hkhash rfl
  have hsplit : splitFirstEq (renderLine k v) = some (k, '"' :: (v ++ ['"'])) := by
    unfold renderLine
    exact splitFirstEq_append _ hkeq
  have hvstrip : pyStrip ('"' :: (v ++ ['"'])) = '"' :: (v ++ ['"']) := by
    unfold pyStrip
    apply stripWith_eq_self
    · intro c hc
      simp only [List.head?_cons, Option.some.injEq] at hc
      subst hc
      decide
    · intro c hc
      rw [show '"' :: (v ++ ['"']) = ('"' :: v) ++ ['"'] by simp,
        List.getLast?_concat] at hc
      simp only [Option.some.injEq] at hc
      subst hc
      decide
  have hquotes : stripQuotes ('"' :: (v ++ ['"'])) = v := by
    unfold stripQuotes stripWith
    rw [List.dropWhile_cons, if_pos (by decide)]
    cases v with
    | nil => decide
    | cons b v' =>
      have hb : isQuote b = false := by
        simp only [List.head?_cons, ne_eq, Option.some.injEq] at hvh
        simp [isQuote, hvh]
      rw [List.cons_append, List.dropWhile_cons, if_neg (by simp [hb])]
      rw [show (b :: (v' ++ ['"'])).reverse = '"' :: (v'.reverse ++ [b]) from by simp]
      rw [List.dropWhile_cons, if_pos (by decide)]
      have hdrop : List.dropWhile isQuote (v'.reverse ++ [b]) = v'.reverse ++ [b] := by
        apply dropWhile_eq_self
        intro c hc
        by_cases hv' : v' = []
        · subst hv'
          simp only [List.reverse_nil, List.nil_append, List.head?_cons,
            Option.some.injEq] at hc
          subst hc
          exact hb
        · obtain ⟨d, v'', rfl⟩ := List.exists_cons_of_ne_nil hv'
          rw [List.head?_append_of_ne_nil _ (by simp)] at hc
          rw [List.head?_reverse] at hc
          have hlast2 : (b :: d :: v'').getLast? = some c := by
            rw [List.getLast?_cons_cons]
            exact hc
          have : c ≠ '"' := fun he => hvl (by rw [hlast2, he])
          simp [isQuote, this]
      rw [hdrop]
      simp
  simp only [parseLine, hstrip, hsplit]
  rw [if_neg hne, if_neg hhash]
  simp only [hvstrip, hquotes, show pyStrip k = k from hks]

/-- Whatever the read loop of `save_settings` stores is clean. -/
theorem parseLine_clean {raw : List Char} {kv : List Char × List Char}
    (h : parseLine raw = some kv) (hnl : '\n' ∉ raw) (hnr : '\r' ∉ raw) :
    CleanKey kv.1 ∧ CleanValue kv.2 := by
  simp only [parseLine] at h
  by_cases h0 : pyStrip raw = []
  · rw [if_pos h0] at h; exact absurd h (by simp)
  rw [if_neg h0] at h
  by_cases h1 : (pyStrip raw).head? = some '#'
  · rw [if_pos h1] at h; exact absurd h (by simp)
  rw [if_neg h1] at h
  cases hsp : splitFirstEq (pyStrip raw) with
  | none => rw [hsp] at h; exact absurd h (by simp)
  | some kv0 =>
    rw [hsp] at h
    simp only [Option.some.injEq] at h
    subst h
    have hnl_line : '\n' ∉ pyStrip raw := fun hm => hnl (mem_of_mem_stripWith hm)
    have hnr_line : '\r' ∉ pyStrip raw := fun hm => hnr (mem_of_mem_stripWith hm)
    have hmem := splitFirstEq_mem hsp
    have hnl_k : '\n' ∉ kv0.1 := fun hm => hnl_line (hmem.1 _ hm)
    have hnl_v : '\n' ∉ kv0.2 := fun hm => hnl_line (hmem.2 _ hm)
    have hnr_k : '\r' ∉ kv0.1 := fun hm => hnr_line (hmem.1 _ hm)
    have hnr_v : '\r' ∉ kv0.2 := fun hm => hnr_line (hmem.2 _ hm)
    refine ⟨⟨stripWith_idem pySpace kv0.1, ?_, ?_, ?_, ?_⟩, ?_, ?_, ?_, ?_⟩
    · intro hm
      exact splitFirstEq_no_eq hsp (mem_of_mem_stripWith hm)
    · show (pyStrip kv0.1).head? ≠ some '#'
      by_cases hk0 : pyStrip kv0.1 = []
      · rw [hk0]; simp
      · rw [show (pyStrip kv0.1).head? = (kv0.1.dropWhile pySpace).head? from
          stripWith_head?_eq hk0]
        have hline_eq := splitFirstEq_eq hsp
        cases hk00 : kv0.1 with
        | nil =>
          rw [hk00] at hk0
          exact absurd rfl hk0
        | cons a t =>
          have hha : (pyStrip raw).head? = some a := by
            rw [hline_eq, hk00]
            simp
          have hspace : pySpace a = false := stripWith_head? hha
          rw [dropWhile_eq_self (by
            intro c hc
            simp only [List.head?_cons, Option.some.injEq] at hc
            subst hc
            exact hspace)]
          simp only [List.head?_cons, ne_eq, Option.some.injEq]
          intro he
          subst he
          exact h1 hha
    · exact fun hm => hnl_k (mem_of_mem_stripWith hm)
    · exact fun hm => hnr_k (mem_of_mem_stripWith hm)
    · show (stripQuotes (pyStrip kv0.2)).head? ≠ some '"'
      intro hc
      have hq := stripWith_head? hc
      simp [isQuote] at hq
    · show (stripQuotes (pyStrip kv0.2)).getLast? ≠ some '"'
      intro hc
      have hq := stripWith_getLast? hc
      simp [isQuote] at hq
    · exact fun hm => hnl_v (mem_of_mem_stripWith (mem_of_mem_stripWith hm))
    · exact fun hm => hnr_v (mem_of_mem_stripWith (mem_of_mem_stripWith hm))

/-! ### Dict lemmas -/

/-- Looking up a key that is absent from the key list gives nothing. -/
theorem dictLookup_eq_none {β : Type} {m : List (List Char × β)} {k : List Char}
    (h : k ∉ m.map Prod.fst) : dictLookup m k = none := by
  induction m with
  | nil => rfl
  | cons p m ih =>
    simp only [List.map_cons, List.mem_cons, not_or] at h
    unfold dictLookup
    rw [if_neg (by simp only [beq_iff_eq]; exact fun he => h.1 he.symm)]
    exact ih h.2

/-- The in-place update branch of `dictInsert` leaves other keys alone. -/
theorem dictLookup_map_update_ne {β : Type} {m : List (List Char × β)}
    {k key : List Char} {v : β} (hne : key ≠ k) :
    dictLookup (m.map (fun p => if p.1 == k then (k, v) else p)) key =
      dictLookup m key := by
  induction m with
  | nil => rfl
  | cons p m ih =>
    simp only [List.map_cons]
    unfold dictLookup
    by_cases hp : p.1 == k
    · rw [if_pos hp]
      rw [if_neg (by simp only [beq_iff_eq]; exact fun he => hne he.symm)]
      rw [if_neg (by
        simp only [beq_iff_eq] at hp ⊢
        rw [hp]
        exact fun he => hne he.symm)]
      exact ih
    · rw [if_neg hp]
      by_cases hq : p.1 == key
      · rw [if_pos hq, if_pos hq]
      · rw [if_neg hq, if_neg hq]
        exact ih

/-- The in-place update branch of `dictInsert` stores the value. -/
theorem dictLookup_map_update_self {β : Type} {m : List (List Char × β)}
    {k : List Char} {v : β} (hmem : m.any (fun p => p.1 == k) = true) :
    dictLookup (m.map (fun p => if p.1 == k then (k, v) else p)) k = some v := by
  induction m with
  | nil => simp at hmem
  | cons p m ih =>
    simp only [List.any_cons, Bool.or_eq_true] at hmem
    simp only [List.map_cons]
    unfold dictLookup
    by_cases hp : p.1 == k
    · rw [if_pos hp, if_pos (by simp)]
    · rw [if_neg hp, if_neg hp]
      apply ih
      rcases hmem with h | h
      · exact absurd h hp
      · exact h

/-- Unfolding lemma for `dictLookup` on a nonempty dict. -/
theorem dictLookup_cons {β : Type} (p : List Char × β) (m : List (List Char × β))
    (key : List Char) :
    dictLookup (p :: m) key = if p.1 == key then some p.2 else dictLookup m key := rfl

/-- Appending past keys that are not `k`. -/
theorem dictLookup_append_of_not_mem {β : Type} {m : List (List Char × β)}
    {k : List Char} (hmem : ¬ m.any (fun p => p.1 == k) = true)
    (l2 : List (List Char × β)) : dictLookup (m ++ l2) k = dictLookup l2 k := by
  induction m with
  | nil => rfl
  | cons p m ih =>
    simp only [List.any_cons, Bool.or_eq_true, not_or] at hmem
    simp only [List.cons_append]
    rw [dictLookup_cons, if_neg hmem.1]
    exact ih hmem.2

/-- Appending a fresh binding does not affect other keys. -/
theorem dictLookup_append_single_ne {β : Type} {m : List (List Char × β)}
    {k key : List Char} {v : β} (hne : key ≠ k) :
    dictLookup (m ++ [(k, v)]) key = dictLookup m key := by
  induction m with
  | nil =>
    show dictLookup [(k, v)] key = none
    unfold dictLookup
    rw [if_neg (by simp only [beq_iff_eq]; exact fun he => hne he.symm)]
    rfl
  | cons p m ih =>
    simp only [List.cons_append]
    unfold dictLookup
    by_cases hp : p.1 == key
    · rw [if_pos hp, if_pos hp]
    · rw [if_neg hp, if_neg hp]
      exact ih

/-- Setting `dict[k] = v` followed by lookup of `k` gives `v`. -/
theorem dictLookup_insert_self {β : Type} (m : List (List Char × β))
    (k : List Char) (v : β) : dictLookup (dictInsert m k v) k = some v := by
  unfold dictInsert
  by_cases hmem : m.any (fun p => p.1 == k) = true
  · rw [if_pos hmem]
    exact dictLookup_map_update_self hmem
  · rw [if_neg hmem, dictLookup_append_of_not_mem hmem]
    unfold dictLookup
    rw [if_pos (by simp)]

/-- Setting `dict[k] = v` does not change the lookup of other keys. -/
theorem dictLookup_insert_ne {β : Type} (m : List (List Char × β))
    {k key : List Char} (v : β) (hne : key ≠ k) :
    dictLookup (dictInsert m k v) key = dictLookup m key := by
  unfold dictInsert
  by_cases hmem : m.any (fun p => p.1 == k) = true
  · rw [if_pos hmem]
    exact dictLookup_map_update_ne hne
  · rw [if_neg hmem]
    exact dictLookup_append_single_ne hne

/-- The function `dictInsert` keeps keys unique. -/
theorem dictInsert_keys_nodup {β : Type} {m : List (List Char × β)}
    {k : List Char} {v : β} (h : (m.map Prod.fst).Nodup) :
    ((dictInsert m k v).map Prod.fst).Nodup := by
  unfold dictInsert
  by_cases hmem : m.any (fun p => p.1 == k) = true
  · rw [if_pos hmem]
    have heq : (m.map (fun p => if p.1 == k then (k, v) else p)).map Prod.fst =
        m.map Prod.fst := by
      rw [List.map_map]
      apply List.map_congr_left
      intro p _
      by_cases hpk : p.1 == k
      · simp only [Function.comp_apply, if_pos hpk]
        simp only [beq_iff_eq] at hpk
        simp [hpk]
      · have hpk' : ¬ p.1 = k := by simpa [beq_iff_eq] using hpk
        simp [hpk']
    rw [heq]
    exact h
  · rw [if_neg hmem, List.map_append]
    have hk : k ∉ m.map Prod.fst := by
      intro hkm
      apply hmem
      simp only [List.any_eq_true]
      obtain ⟨p, hp, he⟩ := List.mem_map.mp hkm
      exact ⟨p, hp, by simp [beq_iff_eq, he]⟩
    refine List.Nodup.append h (by simp) ?_
    intro a ha hb
    simp only [List.map_cons, List.map_nil, List.mem_singleton] at hb
    subst hb
    exact hk ha

/-- Every entry of `dictInsert m k v` is an old entry or the new binding. -/
theorem mem_dictInsert {β : Type} {m : List (List Char × β)} {k : List Char}
    {v : β} {p : List Char × β} (h : p ∈ dictInsert m k v) :
    p ∈ m ∨ p = (k, v) := by
  unfold dictInsert at h
  split at h
  · obtain ⟨q, hq, he⟩ := List.mem_map.mp h
    by_cases hqk : q.1 == k
    · rw [if_pos hqk] at he
      exact Or.inr he.symm
    · rw [if_neg hqk] at he
      exact Or.inl (he ▸ hq)
  · rcases List.mem_append.mp h with h | h
    · exact Or.inl h
    · exact Or.inr (List.mem_singleton.mp h)

/-- Folding Python dict insertion over a pair list. -/
def foldInsert (acc pairs : List (List Char × List Char)) :
    List (List Char × List Char) :=
  pairs.foldl (fun acc p => dictInsert acc p.1 p.2) acc

/-- Looking up after folding a key-unique pair list: the pair list wins,
otherwise the accumulator answers. -/
theorem dictLookup_foldInsert {pairs : List (List Char × List Char)}
    (acc : List (List Char × List Char)) {key : List Char}
    (h : (pairs.map Prod.fst).Nodup) :
    dictLookup (foldInsert acc pairs) key =
      match dictLookup pairs key with
      | some v => some v
      | none => dictLookup acc key := by
  induction pairs generalizing acc with
  | nil => rfl
  | cons p pairs ih =>
    simp only [List.map_cons, List.nodup_cons] at h
    show dictLookup (foldInsert (dictInsert acc p.1 p.2) pairs) key = _
    rw [ih _ h.2, dictLookup_cons]
    by_cases hk : p.1 = key
    · have hnone : dictLookup pairs key = none :=
        dictLookup_eq_none (by rw [← hk]; exact h.1)
      rw [hnone, if_pos (by simp [beq_iff_eq, hk])]
      show dictLookup (dictInsert acc p.1 p.2) key = some p.2
      rw [← hk]
      exact dictLookup_insert_self acc p.1 p.2
    · rw [if_neg (by simp only [beq_iff_eq]; exact hk)]
      cases hlp : dictLookup pairs key with
      | some v => rfl
      | none =>
        show dictLookup (dictInsert acc p.1 p.2) key = dictLookup acc key
        exact dictLookup_insert_ne acc p.2 (fun he => hk he.symm)

/-! ### Sorting is a permutation and lookup respects permutations -/

/-- The function `insertSorted` is a permutation of consing. -/
theorem insertSorted_perm (p : List Char × List Char)
    (l : List (List Char × List Char)) : (insertSorted p l).Perm (p :: l) := by
  induction l with
  | nil => exact List.Perm.refl _
  | cons q rest ih =>
    unfold insertSorted
    by_cases hc : listCharLt q.1 p.1
    · rw [if_pos hc]
      exact (ih.cons q).trans (List.Perm.swap p q rest)
    · rw [if_neg hc]

/-- Python `sorted(...)` permutes the dict items. -/
theorem sortPairs_perm (l : List (List Char × List Char)) : (sortPairs l).Perm l := by
  induction l with
  | nil => exact List.Perm.refl _
  | cons p rest ih =>
    show (insertSorted p (sortPairs rest)).Perm (p :: rest)
    exact (insertSorted_perm p (sortPairs rest)).trans (ih.cons p)

/-- With unique keys, lookup only depends on the set of bindings. -/
theorem dictLookup_perm {m₁ m₂ : List (List Char × List Char)}
    (hp : m₁.Perm m₂) : ∀ key, (m₁.map Prod.fst).Nodup →
    dictLookup m₁ key = dictLookup m₂ key := by
  induction hp with
  | nil => intro key _; rfl
  | cons x _ ih =>
    intro key hn
    simp only [List.map_cons, List.nodup_cons] at hn
    rw [dictLookup_cons, dictLookup_cons]
    by_cases hx : x.1 == key
    · rw [if_pos hx, if_pos hx]
    · rw [if_neg hx, if_neg hx]
      exact ih key hn.2
  | swap x y l =>
    intro key hn
    simp only [List.map_cons, List.nodup_cons, List.mem_cons, not_or] at hn
    rw [dictLookup_cons, dictLookup_cons, dictLookup_cons, dictLookup_cons]
    by_cases hy : y.1 == key <;> by_cases hx : x.1 == key
    · exfalso
      simp only [beq_iff_eq] at hy hx
      exact hn.1.1 (hy.trans hx.symm)
    · rw [if_pos hy, if_neg hx, if_pos hy]
    · rw [if_neg hy, if_pos hx, if_pos hx]
    · rw [if_neg hy, if_neg hx, if_neg hx, if_neg hy]
  | trans h12 _ ih12 ih23 =>
    intro key hn
    rw [ih12 key hn]
    exact ih23 key (((h12.map Prod.fst).nodup_iff).mp hn)

/-! ### Invariants of `parseConfig` -/

/-- The read loop produces a dict with unique keys. -/
theorem parseConfig_keys_nodup (content : List Char) :
    ((parseConfig content).map Prod.fst).Nodup := by
  unfold parseConfig
  generalize splitLines content = lines
  suffices H : ∀ (acc : List (List Char × List Char)), (acc.map Prod.fst).Nodup →
      ((lines.foldl
        (fun acc line =>
          match parseLine line with
          | none => acc
          | some kv => dictInsert acc kv.1 kv.2) acc).map Prod.fst).Nodup from
    H [] (by simp)
  induction lines with
  | nil => exact fun acc h => h
  | cons line rest ih =>
    intro acc h
    show ((rest.foldl _ (match parseLine line with
      | none => acc
      | some kv => dictInsert acc kv.1 kv.2)).map Prod.fst).Nodup
    cases parseLine line with
    | none => exact ih acc h
    | some kv => exact ih _ (dictInsert_keys_nodup h)

/-- Clean pairs are preserved through the read loop's fold. -/
theorem foldParse_clean {p : List Char × List Char} :
    ∀ (lines : List (List Char)) (acc : List (List Char × List Char)),
    (∀ l ∈ lines, '\n' ∉ l ∧ '\r' ∉ l) →
    (∀ q ∈ acc, CleanKey q.1 ∧ CleanValue q.2) →
    p ∈ lines.foldl
      (fun acc line =>
        match parseLine line with
        | none => acc
        | some kv => dictInsert acc kv.1 kv.2) acc →
    CleanKey p.1 ∧ CleanValue p.2 := by
  intro lines
  induction lines with
  | nil =>
    intro acc _ hacc h
    exact hacc p h
  | cons line rest ih =>
    intro acc hnl hacc h
    have hline : '\n' ∉ line ∧ '\r' ∉ line := hnl line (List.mem_cons_self _ _)
    refine ih _ (fun l hl => hnl l (List.mem_cons_of_mem _ hl)) ?_ h
    show ∀ q ∈ (match parseLine line with
      | none => acc
      | some kv => dictInsert acc kv.1 kv.2), CleanKey q.1 ∧ CleanValue q.2
    cases hpl : parseLine line with
    | none =>
      intro q hq
      exact hacc q hq
    | some kv =>
      intro q hq
      rcases mem_dictInsert hq with hq | hq
      · exact hacc q hq
      · rw [hq]
        exact parseLine_clean hpl hline.1 hline.2

/-- Every pair the read loop stores is clean. -/
theorem parseConfig_clean {content : List Char} {p : List Char × List Char}
    (h : p ∈ parseConfig content) : CleanKey p.1 ∧ CleanValue p.2 := by
  unfold parseConfig at h
  exact foldParse_clean (splitLines content) [] splitLines_no_newline (by simp) h

/-! ### Parsing the content `save_settings` writes -/

/-- The write loop puts one rendered line per pair, plus a final empty
split after the trailing newline. -/
theorem splitLines_renderPairs :
    ∀ (pairs : List (List Char × List Char)),
    (∀ p ∈ pairs, '\n' ∉ renderLine p.1 p.2 ∧ '\r' ∉ renderLine p.1 p.2) →
    splitLines (renderPairs pairs) =
      pairs.map (fun p => renderLine p.1 p.2) ++ [[]] := by
  intro pairs
  induction pairs with
  | nil => intro _; rfl
  | cons p rest ih =>
    intro hc
    show splitLinesAux (renderLine p.1 p.2 ++ '\n' :: renderPairs rest) [] false = _
    rw [splitLinesAux_append _ _ (hc p (List.mem_cons_self _ _)).1
      (hc p (List.mem_cons_self _ _)).2]
    simp only [List.reverse_nil, List.nil_append, List.map_cons, List.cons_append]
    exact congrArg _ (ih (fun q hq => hc q (List.mem_cons_of_mem _ hq)))

/-- The header contributes its two comment lines and one empty line. -/
theorem splitLines_saveContent (body : List Char) :
    splitLines (headerChars ++ body) =
      headerLine1 :: headerLine2 :: [] :: splitLines body := by
  unfold splitLines headerChars
  simp only [List.append_assoc, List.cons_append, List.nil_append]
  rw [splitLinesAux_append _ _ (by decide) (by decide),
    splitLinesAux_append _ _ (by decide) (by decide)]
  rw [show splitLinesAux ('\n' :: body) [] false
      = [].reverse :: splitLinesAux body [] false from rfl]
  simp

/-- Folding the parse step over the rendered lines of clean pairs re-inserts
exactly those pairs. -/
theorem foldl_parse_render :
    ∀ (pairs : List (List Char × List Char))
      (acc : List (List Char × List Char)),
    (∀ p ∈ pairs, CleanKey p.1 ∧ CleanValue p.2) →
    (pairs.map (fun (p : List Char × List Char) => renderLine p.1 p.2) ++ [[]]).foldl
      (fun acc line =>
        match parseLine line with
        | none => acc
        | some kv => dictInsert acc kv.1 kv.2) acc = foldInsert acc pairs := by
  intro pairs
  induction pairs with
  | nil => intro acc _; rfl
  | cons p rest ih =>
    intro acc hclean
    simp only [List.map_cons, List.cons_append, List.foldl_cons,
      parseLine_render (hclean p (List.mem_cons_self _ _)).1
        (hclean p (List.mem_cons_self _ _)).2]
    exact ih _ (fun q hq => hclean q (List.mem_cons_of_mem _ hq))

/-- A clean key carries neither line terminator. -/
theorem cleanKey_no_newline {k : List Char} (h : CleanKey k) :
    '\n' ∉ k ∧ '\r' ∉ k := by
  obtain ⟨-, -, -, h4, h5⟩ := h
  exact ⟨h4, h5⟩

/-- A clean value carries neither line terminator. -/
theorem cleanValue_no_newline {v : List Char} (h : CleanValue v) :
    '\n' ∉ v ∧ '\r' ∉ v := by
  obtain ⟨-, -, h3, h4⟩ := h
  exact ⟨h3, h4⟩

/-- Re-reading what `save_settings` wrote re-inserts exactly the (sorted)
pairs that were written. -/
theorem parseConfig_saveContent {pairs : List (List Char × List Char)}
    (hclean : ∀ p ∈ pairs, CleanKey p.1 ∧ CleanValue p.2) :
    parseConfig (headerChars ++ renderPairs pairs) = foldInsert [] pairs := by
  unfold parseConfig
  rw [splitLines_saveContent,
      splitLines_renderPairs pairs (fun (p : List Char × List Char) hp =>
        ⟨renderLine_not_mem (by decide) (by decide)
            (cleanKey_no_newline (hclean p hp).1).1
            (cleanValue_no_newline (hclean p hp).2).1,
          renderLine_not_mem (by decide) (by decide)
            (cleanKey_no_newline (hclean p hp).1).2
            (cleanValue_no_newline (hclean p hp).2).2⟩)]
  rw [List.foldl_cons, List.foldl_cons, List.foldl_cons]
  simp only [show parseLine headerLine1 = none from by decide,
    show parseLine headerLine2 = none from by decide,
    show parseLine ([] : List Char) = none from by decide]
  exact foldl_parse_render pairs [] hclean

/-- Lookup after folding a key-unique pair list into an empty dict. -/
theorem dictLookup_foldInsert_nil {pairs : List (List Char × List Char)}
    {key : List Char} (h : (pairs.map Prod.fst).Nodup) :
    dictLookup (foldInsert [] pairs) key = dictLookup pairs key := by
  rw [dictLookup_foldInsert [] h]
  cases dictLookup pairs key <;> rfl

/-- Claim C6 (amended).  For every in-memory record whose rendered values are
free of the characters the `key="value"` line format cannot carry — no
newline or carriage return and no leading or trailing `"` (always true of
the integer and boolean fields and of every real theme name) — and for every pre-existing
config-file content: a successful `save_settings` followed by re-reading the
file yields exactly the six managed values that were persisted, and every
non-managed key parsed from the file before the save is still present with
its value after it. -/
theorem persist_round_trip (existing : List Char) (r : SettingsValues)
    (hTheme : CleanValue r.theme.toList)
    (hApi : CleanValue (toString r.api_interval).toList)
    (hTimeout : CleanValue (toString r.screen_timeout).toList)
    (hBright : CleanValue (toString r.brightness).toList) :
    (dictLookup (parseConfig (saveSettingsContent existing r)) KEY_THEME =
        some r.theme.toList ∧
      dictLookup (parseConfig (saveSettingsContent existing r)) KEY_API_INTERVAL =
        some (toString r.api_interval).toList ∧
      dictLookup (parseConfig (saveSettingsContent existing r)) KEY_SCREEN_TIMEOUT =
        some (toString r.screen_timeout).toList ∧
      dictLookup (parseConfig (saveSettingsContent existing r)) KEY_SCANLINES =
        some (pyBool r.scanlines) ∧
      dictLookup (parseConfig (saveSettingsContent existing r)) KEY_SHOW_FPS =
        some (pyBool r.show_fps) ∧
      dictLookup (parseConfig (saveSettingsContent existing r)) KEY_BRIGHTNESS =
        some (toString r.brightness).toList) ∧
    (∀ k v, k ∉ managedKeys →
      dictLookup (parseConfig existing) k = some v →
      dictLookup (parseConfig (saveSettingsContent existing r)) k = some v) := by
  have hnodup0 := parseConfig_keys_nodup existing
  have hnodup6 : ((overlayConfig existing r).map Prod.fst).Nodup := by
    unfold overlayConfig
    exact dictInsert_keys_nodup (dictInsert_keys_nodup (dictInsert_keys_nodup
      (dictInsert_keys_nodup (dictInsert_keys_nodup (dictInsert_keys_nodup hnodup0)))))
  have hperm := sortPairs_perm (overlayConfig existing r)
  have hnodupS : ((sortPairs (overlayConfig existing r)).map Prod.fst).Nodup :=
    ((hperm.map Prod.fst).nodup_iff).mpr hnodup6
  have hvalBool1 : CleanValue (pyBool r.scanlines) := by
    cases r.scanlines <;> decide
  have hvalBool2 : CleanValue (pyBool r.show_fps) := by
    cases r.show_fps <;> decide
  have hclean : ∀ p ∈ sortPairs (overlayConfig existing r),
      CleanKey p.1 ∧ CleanValue p.2 := by
    intro p hp
    have hp6 : p ∈ overlayConfig existing r := hperm.subset hp
    unfold overlayConfig at hp6
    rcases mem_dictInsert hp6 with hp5 | hpB
    · rcases mem_dictInsert hp5 with hp4 | hpF
      · rcases mem_dictInsert hp4 with hp3 | hpS
        · rcases mem_dictInsert hp3 with hp2 | hpT
          · rcases mem_dictInsert hp2 with hp1 | hpA
            · rcases mem_dictInsert hp1 with hp0 | hpTh
              · exact parseConfig_clean hp0
              · rw [hpTh]
                exact ⟨show CleanKey KEY_THEME by decide, hTheme⟩
            · rw [hpA]
              exact ⟨show CleanKey KEY_API_INTERVAL by decide, hApi⟩
          · rw [hpT]
            exact ⟨show CleanKey KEY_SCREEN_TIMEOUT by decide, hTimeout⟩
        · rw [hpS]
          exact ⟨show CleanKey KEY_SCANLINES by decide, hvalBool1⟩
      · rw [hpF]
        exact ⟨show CleanKey KEY_SHOW_FPS by decide, hvalBool2⟩
    · rw [hpB]
      exact ⟨show CleanKey KEY_BRIGHTNESS by decide, hBright⟩
  have hmain : parseConfig (saveSettingsContent existing r) =
      foldInsert [] (sortPairs (overlayConfig existing r)) :=
    parseConfig_saveContent hclean
  have hlook : ∀ key, dictLookup (parseConfig (saveSettingsContent existing r)) key =
      dictLookup (overlayConfig existing r) key := by
    intro key
    rw [hmain, dictLookup_foldInsert_nil hnodupS]
    exact dictLookup_perm hperm key hnodupS
  constructor
  · refine ⟨?_, ?_, ?_, ?_, ?_, ?_⟩
    · rw [hlook KEY_THEME]
      unfold overlayConfig
      rw [dictLookup_insert_ne _ _ (by decide), dictLookup_insert_ne _ _ (by decide),
        dictLookup_insert_ne _ _ (by decide), dictLookup_insert_ne _ _ (by decide),
        dictLookup_insert_ne _ _ (by decide)]
      exact dictLookup_insert_self _ _ _
    · rw [hlook KEY_API_INTERVAL]
      unfold overlayConfig
      rw [dictLookup_insert_ne _ _ (by decide), dictLookup_insert_ne _ _ (by decide),
        dictLookup_insert_ne _ _ (by decide), dictLookup_insert_ne _ _ (by decide)]
      exact dictLookup_insert_self _ _ _
    · rw [hlook KEY_SCREEN_TIMEOUT]
      unfold overlayConfig
      rw [dictLookup_insert_ne _ _ (by decide), dictLookup_insert_ne _ _ (by decide),
        dictLookup_insert_ne _ _ (by decide)]
      exact dictLookup_insert_self _ _ _
    · rw [hlook KEY_SCANLINES]
      unfold overlayConfig
      rw [dictLookup_insert_ne _ _ (by decide), dictLookup_insert_ne _ _ (by decide)]
      exact dictLookup_insert_self _ _ _
    · rw [hlook KEY_SHOW_FPS]
      unfold overlayConfig
      rw [dictLookup_insert_ne _ _ (by decide)]
      exact dictLookup_insert_self _ _ _
    · rw [hlook KEY_BRIGHTNESS]
      unfold overlayConfig
      exact dictLookup_insert_self _ _ _
  · intro k v hk hv
    simp only [managedKeys, List.mem_cons, List.not_mem_nil, or_false, not_or] at hk
    obtain ⟨hk1, hk2, hk3, hk4, hk5, hk6⟩ := hk
    rw [hlook k]
    unfold overlayConfig
    rw [dictLookup_insert_ne _ _ hk6, dictLookup_insert_ne _ _ hk5,
      dictLookup_insert_ne _ _ hk4, dictLookup_insert_ne _ _ hk3,
      dictLookup_insert_ne _ _ hk2, dictLookup_insert_ne _ _ hk1]
    exact hv

/-- The record of C6's counterexample: a theme whose text ends in a `"`.
Any theme containing a leading/trailing quote or a newline behaves the
same way. -/
def quirkRecord : SettingsValues := ⟨"a\"", 5, 0, true, false, 100⟩

/-- Claim C6 counterexample.  Persisting a record whose theme is the two
characters `a"` (starting from an empty config file) and re-reading the file
yields theme `a`: the `value.strip('"')` of the read loop eats the quote, so
the persisted managed values are not always reproduced. -/
theorem persist_round_trip_counterexample :
    quirkRecord.theme.toList = ['a', '"'] ∧
    dictLookup (parseConfig (saveSettingsContent [] quirkRecord)) KEY_THEME =
      some ['a'] ∧
    some (['a'] : List Char) ≠ some ['a', '"'] := by
  refine ⟨?_, ?_, ?_⟩ <;> decide

/-- A pre-existing config content for C6's witness: a credential key and
one managed key that will be overwritten, plus a comment. -/
def sampleConfigFile : List Char :=
  "# old header\nPIHOLE_PASSWORD=\"hunter2\"\nCUTIE_THEME=\"old\"\n".toList

/-- The record persisted in C6's witness. -/
def sampleRecord : SettingsValues := ⟨"neon", 10, 5, false, true, 80⟩

/-- Witness for C6: persisting over `sampleConfigFile` reproduces the six
managed values and keeps the unmanaged `PIHOLE_PASSWORD` binding. -/
theorem persist_round_trip_witness :
    (dictLookup (parseConfig (saveSettingsContent sampleConfigFile sampleRecord))
        KEY_THEME = some "neon".toList ∧
      dictLookup (parseConfig (saveSettingsContent sampleConfigFile sampleRecord))
        KEY_API_INTERVAL = some "10".toList ∧
      dictLookup (parseConfig (saveSettingsContent sampleConfigFile sampleRecord))
        KEY_SCREEN_TIMEOUT = some "5".toList ∧
      dictLookup (parseConfig (saveSettingsContent sampleConfigFile sampleRecord))
        KEY_SCANLINES = some "false".toList ∧
      dictLookup (parseConfig (saveSettingsContent sampleConfigFile sampleRecord))
        KEY_SHOW_FPS = some "true".toList ∧
      dictLookup (parseConfig (saveSettingsContent sampleConfigFile sampleRecord))
        KEY_BRIGHTNESS = some "80".toList) ∧
    dictLookup (parseConfig (saveSettingsContent sampleConfigFile sampleRecord))
      "PIHOLE_PASSWORD".toList = some "hunter2".toList := by
  obtain ⟨h1, h2⟩ := persist_round_trip sampleConfigFile sampleRecord
    (by decide) (by decide) (by decide) (by decide)
  exact ⟨h1, h2 "PIHOLE_PASSWORD".toList "hunter2".toList (by decide) (by decide)⟩

end CutiePi
